import Mathlib

/-!
Verification of the cross-language SM crypto test orchestrator
(`runner/runner.py`) and the Python adapter (`wrappers/py/wrapper.py`).

The Python code is shallowly embedded: JSON values become the inductive
`JValue`, subprocess execution becomes an explicit `Subproc` description,
crypto-library calls and adapter processes become oracle functions, and the
mutable `test_results` list becomes an explicit accumulator threaded through
the loop translations.  A Python exception escaping a driver loop is modelled
by a `Bool` crash flag (records accumulated so far are kept, later work is
skipped), matching how an uncaught exception aborts the run.
-/

set_option autoImplicit false

namespace SMBC

/-- A parsed JSON value, as returned by `json.loads`.  `jnull` is Python's
`None`. -/
inductive JValue where
  | jnull : JValue
  | jbool (b : Bool) : JValue
  | jnum (n : Int) : JValue
  | jstr (s : String) : JValue
  | jarr (elems : List JValue) : JValue
  | jobj (fields : List (String × JValue)) : JValue

/-- Python `v == lit` for a string literal `lit`: true exactly when `v` is
that string. -/
def JValue.isStr (v : JValue) (s : String) : Bool :=
  match v with
  | .jstr s' => s' = s
  | _ => false

/-- First binding of a key in an association list of JSON fields. -/
def findField (k : String) : List (String × JValue) → Option JValue
  | [] => none
  | (k', v) :: t => if k' = k then some v else findField k t

/-- `v[k]` on a parsed JSON value: yields the field when `v` is an object
that has the key, and `none` (a `KeyError`/`TypeError` in Python) otherwise. -/
def JValue.find (v : JValue) (k : String) : Option JValue :=
  match v with
  | .jobj fs => findField k fs
  | _ => none

/-- `v.get(k)` on a dict: the field when present, else `None`. -/
def JValue.pyGet (v : JValue) (k : String) : JValue :=
  (v.find k).getD .jnull

/-- `v.get(k, d)` on a dict: the field when present, else the default `d`. -/
def JValue.pyGetD (v : JValue) (k : String) (d : JValue) : JValue :=
  (v.find k).getD d

/-- Python truthiness of a JSON value (`bool(v)`). -/
def JValue.truthy : JValue → Bool
  | .jnull => false
  | .jbool b => b
  | .jnum n => n != 0
  | .jstr s => s != ""
  | .jarr l => !l.isEmpty
  | .jobj l => !l.isEmpty

mutual

/-- Structural equality of JSON values (Python `==` on parsed JSON). -/
def JValue.beq : JValue → JValue → Bool
  | .jnull, .jnull => true
  | .jbool a, .jbool b => a == b
  | .jnum a, .jnum b => a == b
  | .jstr a, .jstr b => a == b
  | .jarr a, .jarr b => beqElems a b
  | .jobj a, .jobj b => beqFields a b
  | _, _ => false

/-- Elementwise equality of JSON arrays. -/
def beqElems : List JValue → List JValue → Bool
  | [], [] => true
  | x :: xs, y :: ys => JValue.beq x y && beqElems xs ys
  | _, _ => false

/-- Fieldwise equality of JSON objects. -/
def beqFields : List (String × JValue) → List (String × JValue) → Bool
  | [], [] => true
  | (k, v) :: xs, (k', v') :: ys => k == k' && JValue.beq v v' && beqFields xs ys
  | _, _ => false

end

/-- Whether `v` occurs in `l`, up to `JValue.beq` (Python `v in l`). -/
def memJ (v : JValue) (l : List JValue) : Bool :=
  l.any (JValue.beq v)

/-- The distinct values of `l` (Python `set(l)`), counted via `JValue.beq`. -/
def dedupJ : List JValue → List JValue
  | [] => []
  | x :: xs => if memJ x (dedupJ xs) then dedupJ xs else x :: dedupJ xs

/-! ## The Provider Invocation Gateway: `LanguageWrapper.execute`

`subprocess.run` is modelled by a `Subproc` description of the child process:
how it launches, how long it runs, and, when it completes, its exit code and
captured streams.  `json.loads` is an oracle `parse : String → Option JValue`
(`none` is a `JSONDecodeError`).  The Python exceptions that can cross the
`try` boundary of `execute` are the `PyExc` type; `execute` returning
`Except.error` models an exception escaping to the caller. -/

/-- An exception raised inside the `try` block of `LanguageWrapper.execute`. -/
inductive PyExc where
  | timeoutExpired : PyExc
  | fileNotFound : PyExc
  | other (msg : String) : PyExc
deriving DecidableEq

/-- How launching the child process goes: it starts, the executable is
missing (`FileNotFoundError`), or launching fails some other way. -/
inductive LaunchStatus where
  | started : LaunchStatus
  | notFound : LaunchStatus
  | failsWith (msg : String) : LaunchStatus
deriving DecidableEq

/-- One subprocess invocation, as the environment presents it: launch
behaviour, wall-clock duration, and (when it completes) exit code and the
captured stdout/stderr streams. -/
structure Subproc where
  duration : Nat
  returncode : Int
  stdout : String
  stderr : String
  launch : LaunchStatus
deriving DecidableEq

/-- `LanguageWrapper.EXECUTION_TIMEOUT`: timeout for wrapper execution in
seconds. -/
def EXECUTION_TIMEOUT : Nat := 30

/-- `subprocess.run(cmd, capture_output=True, text=True, timeout=t)`:
raises on a missing executable or a launch failure, raises
`TimeoutExpired` when the process outlives the timeout, and otherwise
returns the completed process. -/
def runSubproc (p : Subproc) (timeoutSec : Nat) : Except PyExc (Int × String × String) :=
  match p.launch with
  | .notFound => .error .fileNotFound
  | .failsWith m => .error (.other m)
  | .started =>
    if timeoutSec < p.duration then .error .timeoutExpired
    else .ok (p.returncode, p.stdout, p.stderr)

/-- The error-result dictionary `{"status": "error", "message": m}`. -/
def errorResult (m : String) : JValue :=
  .jobj [("status", .jstr "error"), ("message", .jstr m)]

/-- The `try` block of `LanguageWrapper.execute`: run the subprocess, reject a
non-zero exit with empty stdout, then parse stdout as JSON. -/
def executeBody (parse : String → Option JValue) (p : Subproc) : Except PyExc JValue :=
  match runSubproc p EXECUTION_TIMEOUT with
  | .error e => .error e
  | .ok (rc, out, serr) =>
    if rc != 0 && out == "" then
      .ok (errorResult ("Process exited with code " ++ toString rc ++ ": " ++ serr))
    else
      match parse out with
      | some v => .ok v
      | none => .ok (errorResult ("Invalid JSON output: " ++ out ++ "\nStderr: " ++ serr))

/-- `LanguageWrapper.execute`: the `try` block with its `except` handlers for
`TimeoutExpired`, `FileNotFoundError` and any other `Exception`.  `cmd0` is
`self.command[0]`.  A result of `Except.error` would mean an exception
escaped to the caller. -/
def execute (parse : String → Option JValue) (p : Subproc) (cmd0 : String) :
    Except PyExc JValue :=
  match executeBody parse p with
  | .ok v => .ok v
  | .error .timeoutExpired => .ok (errorResult "Process timed out")
  | .error .fileNotFound => .ok (errorResult ("Command not found: " ++ cmd0))
  | .error (.other m) => .ok (errorResult m)

/-- Whether an `execute` call returned normally (no exception escaped). -/
def execReturned (e : Except PyExc JValue) : Bool :=
  match e with
  | .ok _ => true
  | .error _ => false

/-- The value an `execute` call returned (`jnull` if an exception escaped). -/
def execValue (e : Except PyExc JValue) : JValue :=
  match e with
  | .ok v => v
  | .error _ => .jnull

/-! ## Claim-side vocabulary for the Gateway claims -/

/-- Whether `needle` occurs as a contiguous run inside `hay`. -/
def listContains : List Char → List Char → Bool
  | [], needle => needle.isEmpty
  | c :: t, needle => needle.isPrefixOf (c :: t) || listContains t needle

/-- The string `hay` references (contains) the string `needle`. -/
def mentions (needle hay : String) : Bool :=
  listContains hay.data needle.data

/-- Modelled from the spec: a well-formed Capability Result mapping is a JSON
object whose `status` is `success`, or `error` with a string `message`. -/
def isWellFormedCap (v : JValue) : Bool :=
  match v.find "status" with
  | some st =>
    st.isStr "success" ||
      (st.isStr "error" &&
        (match v.find "message" with
         | some (.jstr _) => true
         | _ => false))
  | none => false

/-- Modelled from the spec: the subprocess failure modes of claim C1 in which
no parseable standard output reaches the Gateway — missing executable, launch
failure, timeout, or standard output that does not parse as JSON (which
subsumes a non-zero exit with empty output, since `json.loads` rejects the
empty string). -/
def isSubprocFailureMode (parse : String → Option JValue) (p : Subproc) : Bool :=
  (p.launch != .started) || decide (EXECUTION_TIMEOUT < p.duration) ||
    (parse p.stdout).isNone

theorem listContains_nil (l : List Char) : listContains l [] = true := by
  induction l with
  | nil => rfl
  | cons c t ih => rw [listContains]; simp [List.isPrefixOf, ih]

theorem listContains_prefix (needle post : List Char) :
    listContains (needle ++ post) needle = true := by
  cases needle with
  | nil => exact listContains_nil post
  | cons n ns =>
    rw [List.cons_append, listContains]
    have h : (n :: ns).isPrefixOf (n :: (ns ++ post)) = true := by
      rw [List.isPrefixOf_iff_prefix]
      exact List.prefix_append _ _
    simp [h]

theorem listContains_parts (pre needle post : List Char) :
    listContains (pre ++ (needle ++ post)) needle = true := by
  induction pre with
  | nil => simpa using listContains_prefix needle post
  | cons c t ih => rw [List.cons_append, listContains]; simp [ih]

/-- A string built as `pre ++ needle ++ post` mentions `needle`. -/
theorem mentions_of_parts (pre needle post : String) :
    mentions needle (pre ++ needle ++ post) = true := by
  unfold mentions
  rw [String.append_assoc, String.data_append, String.data_append]
  exact listContains_parts pre.data needle.data post.data

theorem isWellFormedCap_errorResult (m : String) :
    isWellFormedCap (errorResult m) = true := by
  simp [isWellFormedCap, errorResult, JValue.find, findField, JValue.isStr]


/-! ## Shape lemmas for `execute` -/

theorem execute_notFound (parse : String → Option JValue) (p : Subproc) (cmd0 : String)
    (h : p.launch = .notFound) :
    execute parse p cmd0 = .ok (errorResult ("Command not found: " ++ cmd0)) := by
  simp only [execute, executeBody, runSubproc, h]

theorem execute_launchFail (parse : String → Option JValue) (p : Subproc) (cmd0 : String)
    (m : String) (h : p.launch = .failsWith m) :
    execute parse p cmd0 = .ok (errorResult m) := by
  simp only [execute, executeBody, runSubproc, h]

theorem execute_timedOut (parse : String → Option JValue) (p : Subproc) (cmd0 : String)
    (h1 : p.launch = .started) (h2 : EXECUTION_TIMEOUT < p.duration) :
    execute parse p cmd0 = .ok (errorResult "Process timed out") := by
  simp only [execute, executeBody, runSubproc, h1, if_pos h2]

theorem execute_completed (parse : String → Option JValue) (p : Subproc) (cmd0 : String)
    (h1 : p.launch = .started) (h2 : ¬ EXECUTION_TIMEOUT < p.duration) :
    execute parse p cmd0 =
      if p.returncode != 0 && p.stdout == "" then
        .ok (errorResult ("Process exited with code " ++ toString p.returncode ++ ": " ++ p.stderr))
      else
        match parse p.stdout with
        | some v => .ok v
        | none =>
          .ok (errorResult ("Invalid JSON output: " ++ p.stdout ++ "\nStderr: " ++ p.stderr)) := by
  simp only [execute, executeBody, runSubproc, h1, if_neg h2]
  cases hb : (p.returncode != 0 && p.stdout == "") with
  | true => simp [hb]
  | false =>
    simp only [hb, Bool.false_eq_true, if_false]
    cases hp : parse p.stdout <;> rfl

/-! ## Claims C1, C7, C8: the Gateway -/

/-- A `json.loads` model that parses `"[]"` to the empty JSON array, as the
real `json.loads` does, and rejects everything else. -/
def cex1Parse : String → Option JValue :=
  fun s => if s = "[]" then some (.jarr []) else none

/-- A subprocess that exits with code 1 after printing `[]` to stdout. -/
def cex1Proc : Subproc :=
  { duration := 1, returncode := 1, stdout := "[]", stderr := "", launch := .started }

/-- A `json.loads` model that rejects every string (as the real one does on
`""` and on the non-JSON output `"x"`). -/
def cex8Parse : String → Option JValue := fun _ => none

/-- A subprocess that exits with code 1, prints the non-JSON text `x`, and
writes `boom` to stderr. -/
def cex8Proc : Subproc :=
  { duration := 1, returncode := 1, stdout := "x", stderr := "boom", launch := .started }

/-- A subprocess that launches fine but runs for 31 seconds. -/
def slowProc : Subproc :=
  { duration := 31, returncode := 0, stdout := "", stderr := "", launch := .started }

/-- **C1** (counterexample): under the "non-zero exit" subprocess failure
mode, `execute` does not always return a well-formed Capability Result
mapping: when stdout parses as JSON, the parsed value is returned verbatim,
here the JSON array `[]`, which is not a Capability Result mapping at all. -/
theorem C1_counterexample :
    cex1Proc.returncode ≠ 0 ∧
    execute cex1Parse cex1Proc "python3" = .ok (.jarr []) ∧
    isWellFormedCap (.jarr []) = false :=
  ⟨by decide, rfl, rfl⟩

/-- **C1** (amended): `LanguageWrapper.execute` never lets an exception reach
its caller, and under every subprocess failure mode that yields no parseable
standard output (missing executable, launch failure, timeout, unparseable or
empty stdout — the latter covering a non-zero exit with no output) it returns
a well-formed error Capability Result mapping.  When stdout parses as JSON,
the parsed value is returned as-is, so it is a well-formed mapping only if
the adapter printed one. -/
theorem C1_gateway_total (parse : String → Option JValue) (p : Subproc) (cmd0 : String)
    (hfail : isSubprocFailureMode parse p = true) :
    execReturned (execute parse p cmd0) = true ∧
    isWellFormedCap (execValue (execute parse p cmd0)) = true := by
  unfold isSubprocFailureMode at hfail
  cases hl : p.launch with
  | notFound =>
    rw [execute_notFound parse p cmd0 hl]
    exact ⟨rfl, isWellFormedCap_errorResult _⟩
  | failsWith m =>
    rw [execute_launchFail parse p cmd0 m hl]
    exact ⟨rfl, isWellFormedCap_errorResult _⟩
  | started =>
    rw [hl] at hfail
    simp only [bne_self_eq_false, Bool.false_or, Bool.or_eq_true, decide_eq_true_eq,
      Option.isNone_iff_eq_none] at hfail
    by_cases hd : EXECUTION_TIMEOUT < p.duration
    · rw [execute_timedOut parse p cmd0 hl hd]
      exact ⟨rfl, isWellFormedCap_errorResult _⟩
    · have hparse : parse p.stdout = none := hfail.resolve_left hd
      rw [execute_completed parse p cmd0 hl hd]
      cases hb : (p.returncode != 0 && p.stdout == "") with
      | true =>
        simp only [if_pos hb]
        exact ⟨rfl, isWellFormedCap_errorResult _⟩
      | false =>
        simp only [hb, Bool.false_eq_true, if_false, hparse]
        exact ⟨rfl, isWellFormedCap_errorResult _⟩

/-- Witness for C1: a timed-out invocation is a failure mode and yields a
well-formed error result. -/
theorem C1_gateway_total_witness :
    isSubprocFailureMode cex8Parse slowProc = true ∧
    execReturned (execute cex8Parse slowProc "python3") = true ∧
    isWellFormedCap (execValue (execute cex8Parse slowProc "python3")) = true :=
  ⟨rfl,
   (C1_gateway_total cex8Parse slowProc "python3" rfl).1,
   (C1_gateway_total cex8Parse slowProc "python3" rfl).2⟩

/-- **C7**: a subprocess that launches but exceeds the fixed 30-second
timeout makes `execute` return (not raise) the error Capability Result whose
message is `"Process timed out"`, which indeed says the process timed out. -/
theorem C7_timeout (parse : String → Option JValue) (p : Subproc) (cmd0 : String)
    (hlaunch : p.launch = .started) (hdur : EXECUTION_TIMEOUT < p.duration) :
    execute parse p cmd0 = .ok (errorResult "Process timed out") ∧
    mentions "timed out" "Process timed out" = true :=
  ⟨execute_timedOut parse p cmd0 hlaunch hdur, by decide⟩

/-- Witness for C7 at a concrete 31-second subprocess. -/
theorem C7_timeout_witness :
    slowProc.launch = .started ∧ EXECUTION_TIMEOUT < slowProc.duration ∧
    (execute cex1Parse slowProc "node" = .ok (errorResult "Process timed out") ∧
     mentions "timed out" "Process timed out" = true) :=
  ⟨rfl, by decide, C7_timeout cex1Parse slowProc "node" rfl (by decide)⟩

/-- **C8** (counterexample): for a non-zero exit whose (non-empty) stdout is
not parseable JSON, the error result references the raw output and stderr but
not the exit code: the message for exit code 1 contains no `"1"`. -/
theorem C8_counterexample :
    cex8Proc.returncode ≠ 0 ∧
    toString cex8Proc.returncode = "1" ∧
    cex8Parse cex8Proc.stdout = none ∧
    execute cex8Parse cex8Proc "python3" =
      .ok (errorResult "Invalid JSON output: x\nStderr: boom") ∧
    mentions "1" "Invalid JSON output: x\nStderr: boom" = false :=
  ⟨by decide, rfl, rfl, rfl, by decide⟩

/-- The corrected exit-code policy of `LanguageWrapper.execute` for a
completed run with non-zero exit code: parseable stdout is returned verbatim;
empty stdout yields an error referencing the exit code and stderr; non-empty
unparseable stdout yields an error referencing the raw output and stderr. -/
def ExitCodePolicy (parse : String → Option JValue) (p : Subproc) (cmd0 : String) : Prop :=
  (∀ v, parse p.stdout = some v → execute parse p cmd0 = .ok v) ∧
  (p.stdout = "" →
    execute parse p cmd0 =
      .ok (errorResult ("Process exited with code " ++ toString p.returncode ++ ": " ++ p.stderr)) ∧
    mentions (toString p.returncode)
      ("Process exited with code " ++ toString p.returncode ++ ": " ++ p.stderr) = true ∧
    mentions p.stderr
      ("Process exited with code " ++ toString p.returncode ++ ": " ++ p.stderr) = true) ∧
  (p.stdout ≠ "" → parse p.stdout = none →
    execute parse p cmd0 =
      .ok (errorResult ("Invalid JSON output: " ++ p.stdout ++ "\nStderr: " ++ p.stderr)) ∧
    mentions p.stdout
      ("Invalid JSON output: " ++ p.stdout ++ "\nStderr: " ++ p.stderr) = true ∧
    mentions p.stderr
      ("Invalid JSON output: " ++ p.stdout ++ "\nStderr: " ++ p.stderr) = true)

/-- **C8** (amended): for every completed subprocess run with a non-zero exit
code, `execute` tolerates the exit code and returns the parsed result
whenever stdout is parseable JSON; with empty stdout it returns an error
referencing the exit code and the stderr stream; with non-empty unparseable
stdout it returns an error referencing the raw output and the stderr stream
(but, per the counterexample, not the exit code). -/
theorem C8_exit_code_policy (parse : String → Option JValue) (p : Subproc) (cmd0 : String)
    (hempty : parse "" = none) (hlaunch : p.launch = .started)
    (hdur : p.duration ≤ EXECUTION_TIMEOUT) (hrc : p.returncode ≠ 0) :
    ExitCodePolicy parse p cmd0 := by
  have hnd : ¬ EXECUTION_TIMEOUT < p.duration := Nat.not_lt.mpr hdur
  have hex := execute_completed parse p cmd0 hlaunch hnd
  refine ⟨?_, ?_, ?_⟩
  · intro v hv
    have hso : p.stdout ≠ "" := by
      intro h
      rw [h, hempty] at hv
      exact Option.noConfusion hv
    have hb : (p.returncode != 0 && p.stdout == "") = false := by
      simp [hso]
    rw [hex]
    simp [hb, hv]
  · intro hso
    refine ⟨?_, ?_, ?_⟩
    · have hb : (p.returncode != 0 && p.stdout == "") = true := by
        simp [hso, hrc]
      rw [hex]
      simp [hb]
    · simpa [String.append_assoc] using
        mentions_of_parts "Process exited with code " (toString p.returncode)
          (": " ++ p.stderr)
    · have h := mentions_of_parts
        ("Process exited with code " ++ toString p.returncode ++ ": ") p.stderr ""
      simpa [String.append_assoc] using h
  · intro hso hparse
    refine ⟨?_, ?_, ?_⟩
    · have hb : (p.returncode != 0 && p.stdout == "") = false := by
        simp [hso]
      rw [hex]
      simp [hb, hparse]
    · simpa [String.append_assoc] using
        mentions_of_parts "Invalid JSON output: " p.stdout ("\nStderr: " ++ p.stderr)
    · have h := mentions_of_parts
        ("Invalid JSON output: " ++ p.stdout ++ "\nStderr: ") p.stderr ""
      simpa [String.append_assoc] using h

/-- Witness for C8 at the concrete failing-adapter subprocess `cex8Proc`. -/
theorem C8_exit_code_policy_witness :
    cex8Parse "" = none ∧ cex8Proc.launch = .started ∧
    cex8Proc.duration ≤ EXECUTION_TIMEOUT ∧ cex8Proc.returncode ≠ 0 ∧
    ExitCodePolicy cex8Parse cex8Proc "python3" :=
  ⟨rfl, rfl, by decide, by decide,
   C8_exit_code_policy cex8Parse cex8Proc "python3" rfl rfl (by decide) (by decide)⟩

/-! ## The Python adapter `wrappers/py/wrapper.py`

Each handler wraps its whole body in `try/except Exception`.  The calls into
the `sm_bc` crypto library (not part of this repository) are oracle functions
that either return a value or raise, via `LibOutcome`.  A `data.get(k, d)`
raises `AttributeError` exactly when the parsed `--input` JSON is not an
object, which the surrounding `try` turns into an error response. -/

/-- The outcome of a call into the external crypto library: a value, or a
raised exception with its message. -/
inductive LibOutcome (α : Type) where
  | ok (val : α) : LibOutcome α
  | raises (msg : String) : LibOutcome α

/-- The uniform result shape of every handler: the `try` body either returns
the operation-specific success fields or raises, and the `except Exception`
arm turns the raised message into an error response. -/
def wrapResult (r : Except String (List (String × JValue))) : JValue :=
  match r with
  | .ok fields => .jobj (("status", .jstr "success") :: fields)
  | .error m => .jobj [("status", .jstr "error"), ("message", .jstr m)]

/-- `sm3_hash`: read `data` (default `""`), hash it via the library. -/
def sm3_hash (digestHex : JValue → LibOutcome String) (data : JValue) : JValue :=
  wrapResult (
    match data with
    | .jobj fs =>
      match digestHex ((findField "data" fs).getD (.jstr "")) with
      | .ok hex => .ok [("output", JValue.jstr hex)]
      | .raises m => .error m
    | _ => .error "AttributeError")

/-- `sm4_encrypt`: read `plaintext`, `key`, `mode` (default `"ECB"`), `iv`,
then encrypt via the library. -/
def sm4_encrypt (enc : JValue → JValue → JValue → JValue → LibOutcome String)
    (data : JValue) : JValue :=
  wrapResult (
    match data with
    | .jobj fs =>
      match enc ((findField "plaintext" fs).getD (.jstr ""))
          ((findField "key" fs).getD (.jstr ""))
          ((findField "mode" fs).getD (.jstr "ECB"))
          ((findField "iv" fs).getD (.jstr "")) with
      | .ok hex => .ok [("output", JValue.jstr hex)]
      | .raises m => .error m
    | _ => .error "AttributeError")

/-- `sm4_decrypt`: read `ciphertext`, `key`, `mode`, `iv`, then decrypt and
decode via the library. -/
def sm4_decrypt (dec : JValue → JValue → JValue → JValue → LibOutcome String)
    (data : JValue) : JValue :=
  wrapResult (
    match data with
    | .jobj fs =>
      match dec ((findField "ciphertext" fs).getD (.jstr ""))
          ((findField "key" fs).getD (.jstr ""))
          ((findField "mode" fs).getD (.jstr "ECB"))
          ((findField "iv" fs).getD (.jstr "")) with
      | .ok plaintext => .ok [("output", JValue.jstr plaintext)]
      | .raises m => .error m
    | _ => .error "AttributeError")

/-- `sm2_sign`: read `message` and optional `private_key`; the library call
yields the signature plus the (possibly generated) key pair; the generated
keys are included in the response only when no private key was provided. -/
def sm2_sign (signImpl : JValue → JValue → LibOutcome (String × String × String))
    (data : JValue) : JValue :=
  wrapResult (
    match data with
    | .jobj fs =>
      match signImpl ((findField "message" fs).getD (.jstr ""))
          ((findField "private_key" fs).getD (.jstr "")) with
      | .ok (sigHex, prvHex, pubHex) =>
        if ((findField "private_key" fs).getD .jnull).truthy then
          .ok [("signature", JValue.jstr sigHex)]
        else
          .ok [("signature", JValue.jstr sigHex), ("private_key", JValue.jstr prvHex),
               ("public_key", JValue.jstr pubHex)]
      | .raises m => .error m
    | _ => .error "AttributeError")

/-- `sm2_verify`: read `message`, `signature`, `public_key`, then verify via
the library (whose parsing of the hex inputs may raise). -/
def sm2_verify (verifyImpl : JValue → JValue → JValue → LibOutcome Bool)
    (data : JValue) : JValue :=
  wrapResult (
    match data with
    | .jobj fs =>
      match verifyImpl ((findField "message" fs).getD (.jstr ""))
          ((findField "signature" fs).getD (.jstr ""))
          ((findField "public_key" fs).getD (.jstr "")) with
      | .ok b => .ok [("valid", JValue.jbool b)]
      | .raises m => .error m
    | _ => .error "AttributeError")

/-- `sm2_encrypt`: read `plaintext` and `public_key`, then encrypt. -/
def sm2_encrypt (enc : JValue → JValue → LibOutcome String) (data : JValue) : JValue :=
  wrapResult (
    match data with
    | .jobj fs =>
      match enc ((findField "plaintext" fs).getD (.jstr ""))
          ((findField "public_key" fs).getD (.jstr "")) with
      | .ok hex => .ok [("output", JValue.jstr hex)]
      | .raises m => .error m
    | _ => .error "AttributeError")

/-- `sm2_decrypt`: read `ciphertext` and `private_key`, then decrypt and
decode. -/
def sm2_decrypt (dec : JValue → JValue → LibOutcome String) (data : JValue) : JValue :=
  wrapResult (
    match data with
    | .jobj fs =>
      match dec ((findField "ciphertext" fs).getD (.jstr ""))
          ((findField "private_key" fs).getD (.jstr "")) with
      | .ok plaintext => .ok [("output", JValue.jstr plaintext)]
      | .raises m => .error m
    | _ => .error "AttributeError")

/-! ## Claim C9: status discipline -/

/-- The `status` field of a response. -/
def statusVal (v : JValue) : Option JValue := v.find "status"

/-- Modelled from the spec: the response carries exactly one of the two
statuses — success XOR error, never both, never neither. -/
def ExactlyOneStatus (v : JValue) : Prop :=
  (statusVal v = some (.jstr "success") ∨ statusVal v = some (.jstr "error")) ∧
  ¬ (statusVal v = some (.jstr "success") ∧ statusVal v = some (.jstr "error"))

/-- Modelled from the spec: a handler response carries exactly one status;
an error response carries a string `message`; a success response carries the
operation-specific output keys `outKeys`. -/
def HandlerShape (outKeys : List String) (v : JValue) : Prop :=
  ExactlyOneStatus v ∧
  (statusVal v = some (.jstr "error") → ∃ m, v.find "message" = some (.jstr m)) ∧
  (statusVal v = some (.jstr "success") → ∀ k ∈ outKeys, (v.find k).isSome = true)

theorem exactlyOneStatus_of_error (v : JValue)
    (h : statusVal v = some (.jstr "error")) : ExactlyOneStatus v := by
  refine ⟨Or.inr h, ?_⟩
  rintro ⟨hs, he⟩
  rw [hs] at he
  simp at he

theorem exactlyOneStatus_of_success (v : JValue)
    (h : statusVal v = some (.jstr "success")) : ExactlyOneStatus v := by
  refine ⟨Or.inl h, ?_⟩
  rintro ⟨hs, he⟩
  rw [hs] at he
  simp at he

theorem handlerShape_error (outKeys : List String) (m : String) :
    HandlerShape outKeys (wrapResult (.error m)) := by
  have hst : statusVal (wrapResult (.error m)) = some (.jstr "error") := by
    simp [wrapResult, statusVal, JValue.find, findField]
  refine ⟨exactlyOneStatus_of_error _ hst, fun _ => ⟨m, ?_⟩, fun h => ?_⟩
  · simp [wrapResult, JValue.find, findField]
  · rw [hst] at h
    simp at h

theorem handlerShape_ok (outKeys : List String) (fs : List (String × JValue))
    (hkeys : ∀ k ∈ outKeys, (findField k fs).isSome = true) :
    HandlerShape outKeys (wrapResult (.ok fs)) := by
  have hst : statusVal (wrapResult (.ok fs)) = some (.jstr "success") := by
    simp [wrapResult, statusVal, JValue.find, findField]
  refine ⟨exactlyOneStatus_of_success _ hst, fun h => ?_, fun _ k hk => ?_⟩
  · rw [hst] at h
    simp at h
  · show (JValue.find (wrapResult (.ok fs)) k).isSome = true
    simp only [wrapResult, JValue.find, findField]
    by_cases hsk : "status" = k
    · rw [if_pos hsk]
      rfl
    · rw [if_neg hsk]
      exact hkeys k hk

theorem sm3_hash_shape (digestHex : JValue → LibOutcome String) (data : JValue) :
    HandlerShape ["output"] (sm3_hash digestHex data) := by
  unfold sm3_hash
  cases data with
  | jobj fs =>
    show HandlerShape ["output"] (wrapResult (
      match digestHex ((findField "data" fs).getD (.jstr "")) with
      | .ok hex => .ok [("output", JValue.jstr hex)]
      | .raises m => .error m))
    cases digestHex ((findField "data" fs).getD (.jstr "")) with
    | ok hex => exact handlerShape_ok _ _ (by simp [findField])
    | raises m => exact handlerShape_error _ _
  | jnull => exact handlerShape_error _ _
  | jbool b => exact handlerShape_error _ _
  | jnum n => exact handlerShape_error _ _
  | jstr s => exact handlerShape_error _ _
  | jarr l => exact handlerShape_error _ _

theorem sm4_encrypt_shape (enc : JValue → JValue → JValue → JValue → LibOutcome String)
    (data : JValue) : HandlerShape ["output"] (sm4_encrypt enc data) := by
  unfold sm4_encrypt
  cases data with
  | jobj fs =>
    show HandlerShape ["output"] (wrapResult (
      match enc ((findField "plaintext" fs).getD (.jstr ""))
          ((findField "key" fs).getD (.jstr ""))
          ((findField "mode" fs).getD (.jstr "ECB"))
          ((findField "iv" fs).getD (.jstr "")) with
      | .ok hex => .ok [("output", JValue.jstr hex)]
      | .raises m => .error m))
    cases enc ((findField "plaintext" fs).getD (.jstr ""))
        ((findField "key" fs).getD (.jstr ""))
        ((findField "mode" fs).getD (.jstr "ECB"))
        ((findField "iv" fs).getD (.jstr "")) with
    | ok hex => exact handlerShape_ok _ _ (by simp [findField])
    | raises m => exact handlerShape_error _ _
  | jnull => exact handlerShape_error _ _
  | jbool b => exact handlerShape_error _ _
  | jnum n => exact handlerShape_error _ _
  | jstr s => exact handlerShape_error _ _
  | jarr l => exact handlerShape_error _ _

theorem sm4_decrypt_shape (dec : JValue → JValue → JValue → JValue → LibOutcome String)
    (data : JValue) : HandlerShape ["output"] (sm4_decrypt dec data) := by
  unfold sm4_decrypt
  cases data with
  | jobj fs =>
    show HandlerShape ["output"] (wrapResult (
      match dec ((findField "ciphertext" fs).getD (.jstr ""))
          ((findField "key" fs).getD (.jstr ""))
          ((findField "mode" fs).getD (.jstr "ECB"))
          ((findField "iv" fs).getD (.jstr "")) with
      | .ok plaintext => .ok [("output", JValue.jstr plaintext)]
      | .raises m => .error m))
    cases dec ((findField "ciphertext" fs).getD (.jstr ""))
        ((findField "key" fs).getD (.jstr ""))
        ((findField "mode" fs).getD (.jstr "ECB"))
        ((findField "iv" fs).getD (.jstr "")) with
    | ok plaintext => exact handlerShape_ok _ _ (by simp [findField])
    | raises m => exact handlerShape_error _ _
  | jnull => exact handlerShape_error _ _
  | jbool b => exact handlerShape_error _ _
  | jnum n => exact handlerShape_error _ _
  | jstr s => exact handlerShape_error _ _
  | jarr l => exact handlerShape_error _ _

theorem sm2_sign_shape (signImpl : JValue → JValue → LibOutcome (String × String × String))
    (data : JValue) : HandlerShape ["signature"] (sm2_sign signImpl data) := by
  unfold sm2_sign
  cases data with
  | jobj fs =>
    show HandlerShape ["signature"] (wrapResult (
      match signImpl ((findField "message" fs).getD (.jstr ""))
          ((findField "private_key" fs).getD (.jstr "")) with
      | .ok (sigHex, prvHex, pubHex) =>
        if ((findField "private_key" fs).getD .jnull).truthy then
          .ok [("signature", JValue.jstr sigHex)]
        else
          .ok [("signature", JValue.jstr sigHex), ("private_key", JValue.jstr prvHex),
               ("public_key", JValue.jstr pubHex)]
      | .raises m => .error m))
    cases signImpl ((findField "message" fs).getD (.jstr ""))
        ((findField "private_key" fs).getD (.jstr "")) with
    | ok triple =>
      obtain ⟨sigHex, prvHex, pubHex⟩ := triple
      show HandlerShape ["signature"] (wrapResult (
        if ((findField "private_key" fs).getD .jnull).truthy then
          .ok [("signature", JValue.jstr sigHex)]
        else
          .ok [("signature", JValue.jstr sigHex), ("private_key", JValue.jstr prvHex),
               ("public_key", JValue.jstr pubHex)]))
      by_cases ht : ((findField "private_key" fs).getD .jnull).truthy = true
      · rw [if_pos ht]
        exact handlerShape_ok _ _ (by simp [findField])
      · rw [if_neg ht]
        exact handlerShape_ok _ _ (by simp [findField])
    | raises m => exact handlerShape_error _ _
  | jnull => exact handlerShape_error _ _
  | jbool b => exact handlerShape_error _ _
  | jnum n => exact handlerShape_error _ _
  | jstr s => exact handlerShape_error _ _
  | jarr l => exact handlerShape_error _ _

theorem sm2_verify_shape (verifyImpl : JValue → JValue → JValue → LibOutcome Bool)
    (data : JValue) : HandlerShape ["valid"] (sm2_verify verifyImpl data) := by
  unfold sm2_verify
  cases data with
  | jobj fs =>
    show HandlerShape ["valid"] (wrapResult (
      match verifyImpl ((findField "message" fs).getD (.jstr ""))
          ((findField "signature" fs).getD (.jstr ""))
          ((findField "public_key" fs).getD (.jstr "")) with
      | .ok b => .ok [("valid", JValue.jbool b)]
      | .raises m => .error m))
    cases verifyImpl ((findField "message" fs).getD (.jstr ""))
        ((findField "signature" fs).getD (.jstr ""))
        ((findField "public_key" fs).getD (.jstr "")) with
    | ok b => exact handlerShape_ok _ _ (by simp [findField])
    | raises m => exact handlerShape_error _ _
  | jnull => exact handlerShape_error _ _
  | jbool b => exact handlerShape_error _ _
  | jnum n => exact handlerShape_error _ _
  | jstr s => exact handlerShape_error _ _
  | jarr l => exact handlerShape_error _ _

theorem sm2_encrypt_shape (enc : JValue → JValue → LibOutcome String) (data : JValue) :
    HandlerShape ["output"] (sm2_encrypt enc data) := by
  unfold sm2_encrypt
  cases data with
  | jobj fs =>
    show HandlerShape ["output"] (wrapResult (
      match enc ((findField "plaintext" fs).getD (.jstr ""))
          ((findField "public_key" fs).getD (.jstr "")) with
      | .ok hex => .ok [("output", JValue.jstr hex)]
      | .raises m => .error m))
    cases enc ((findField "plaintext" fs).getD (.jstr ""))
        ((findField "public_key" fs).getD (.jstr "")) with
    | ok hex => exact handlerShape_ok _ _ (by simp [findField])
    | raises m => exact handlerShape_error _ _
  | jnull => exact handlerShape_error _ _
  | jbool b => exact handlerShape_error _ _
  | jnum n => exact handlerShape_error _ _
  | jstr s => exact handlerShape_error _ _
  | jarr l => exact handlerShape_error _ _

theorem sm2_decrypt_shape (dec : JValue → JValue → LibOutcome String) (data : JValue) :
    HandlerShape ["output"] (sm2_decrypt dec data) := by
  unfold sm2_decrypt
  cases data with
  | jobj fs =>
    show HandlerShape ["output"] (wrapResult (
      match dec ((findField "ciphertext" fs).getD (.jstr ""))
          ((findField "private_key" fs).getD (.jstr "")) with
      | .ok plaintext => .ok [("output", JValue.jstr plaintext)]
      | .raises m => .error m))
    cases dec ((findField "ciphertext" fs).getD (.jstr ""))
        ((findField "private_key" fs).getD (.jstr "")) with
    | ok plaintext => exact handlerShape_ok _ _ (by simp [findField])
    | raises m => exact handlerShape_error _ _
  | jnull => exact handlerShape_error _ _
  | jbool b => exact handlerShape_error _ _
  | jnum n => exact handlerShape_error _ _
  | jstr s => exact handlerShape_error _ _
  | jarr l => exact handlerShape_error _ _

/-- Every value `execute` returns is either an error result `execute` itself
synthesised, or the verbatim parse of the child process stdout. -/
theorem execute_ok_cases (parse : String → Option JValue) (p : Subproc) (cmd0 : String)
    (v : JValue) (hv : execute parse p cmd0 = .ok v) :
    (∃ m, v = errorResult m) ∨ parse p.stdout = some v := by
  cases hl : p.launch with
  | notFound =>
    rw [execute_notFound parse p cmd0 hl] at hv
    exact Or.inl ⟨_, (Except.ok.inj hv).symm⟩
  | failsWith m =>
    rw [execute_launchFail parse p cmd0 m hl] at hv
    exact Or.inl ⟨m, (Except.ok.inj hv).symm⟩
  | started =>
    by_cases hd : EXECUTION_TIMEOUT < p.duration
    · rw [execute_timedOut parse p cmd0 hl hd] at hv
      exact Or.inl ⟨_, (Except.ok.inj hv).symm⟩
    · rw [execute_completed parse p cmd0 hl hd] at hv
      by_cases hb : (p.returncode != 0 && p.stdout == "") = true
      · rw [if_pos hb] at hv
        exact Or.inl ⟨_, (Except.ok.inj hv).symm⟩
      · rw [if_neg hb] at hv
        cases hp : parse p.stdout with
        | some w =>
          rw [hp] at hv
          injection hv with hwv
          rw [hwv]
          exact Or.inr rfl
        | none =>
          rw [hp] at hv
          exact Or.inl ⟨_, (Except.ok.inj hv).symm⟩

/-- A `json.loads` model that parses `"null"` to `None`, as the real one
does, and rejects everything else. -/
def cex9Parse : String → Option JValue :=
  fun s => if s = "null" then some .jnull else none

/-- A subprocess that exits cleanly after printing `null` to stdout. -/
def cex9Proc : Subproc :=
  { duration := 1, returncode := 0, stdout := "null", stderr := "", launch := .started }

/-- **C9** (counterexample): `LanguageWrapper.execute` returns the parsed
stdout verbatim, so an adapter that prints the JSON text `null` makes
`execute` return a value carrying neither a `success` nor an `error`
status. -/
theorem C9_counterexample :
    execute cex9Parse cex9Proc "python3" = .ok .jnull ∧
    statusVal .jnull = none :=
  ⟨rfl, rfl⟩

/-- **C9** (amended): every adapter handler in the Python wrapper returns a
mapping carrying exactly one status — `success` with the operation-specific
output keys, or `error` with a string message; and every value returned by
`LanguageWrapper.execute` either carries exactly one such status (all the
Gateway-synthesised transport errors do) or is the verbatim JSON parse of the
subprocess stdout, which carries a status only if the adapter printed one. -/
theorem C9_status_discipline
    (digestHex : JValue → LibOutcome String)
    (enc4 dec4 : JValue → JValue → JValue → JValue → LibOutcome String)
    (signImpl : JValue → JValue → LibOutcome (String × String × String))
    (verifyImpl : JValue → JValue → JValue → LibOutcome Bool)
    (enc2 dec2 : JValue → JValue → LibOutcome String)
    (data : JValue)
    (parse : String → Option JValue) (p : Subproc) (cmd0 : String) (v : JValue)
    (hv : execute parse p cmd0 = .ok v) :
    HandlerShape ["output"] (sm3_hash digestHex data) ∧
    HandlerShape ["output"] (sm4_encrypt enc4 data) ∧
    HandlerShape ["output"] (sm4_decrypt dec4 data) ∧
    HandlerShape ["signature"] (sm2_sign signImpl data) ∧
    HandlerShape ["valid"] (sm2_verify verifyImpl data) ∧
    HandlerShape ["output"] (sm2_encrypt enc2 data) ∧
    HandlerShape ["output"] (sm2_decrypt dec2 data) ∧
    (ExactlyOneStatus v ∨ parse p.stdout = some v) := by
  refine ⟨sm3_hash_shape digestHex data, sm4_encrypt_shape enc4 data,
    sm4_decrypt_shape dec4 data, sm2_sign_shape signImpl data,
    sm2_verify_shape verifyImpl data, sm2_encrypt_shape enc2 data,
    sm2_decrypt_shape dec2 data, ?_⟩
  rcases execute_ok_cases parse p cmd0 v hv with ⟨m, rfl⟩ | hp
  · refine Or.inl (exactlyOneStatus_of_error _ ?_)
    simp [errorResult, statusVal, JValue.find, findField]
  · exact Or.inr hp

/-- A crypto-library oracle that always succeeds with fixed values. -/
def wLibStr {α : Type} : α → LibOutcome String := fun _ => .ok "00"

/-- Witness for C9, at always-succeeding library oracles, the empty input
object, and a timed-out subprocess whose result is the synthesised timeout
error. -/
theorem C9_status_discipline_witness :
    execute cex9Parse slowProc "php" = .ok (errorResult "Process timed out") ∧
    (HandlerShape ["output"] (sm3_hash wLibStr (.jobj [])) ∧
     HandlerShape ["output"] (sm4_encrypt (fun _ _ _ _ => .ok "00") (.jobj [])) ∧
     HandlerShape ["output"] (sm4_decrypt (fun _ _ _ _ => .ok "00") (.jobj [])) ∧
     HandlerShape ["signature"] (sm2_sign (fun _ _ => .ok ("s", "p", "q")) (.jobj [])) ∧
     HandlerShape ["valid"] (sm2_verify (fun _ _ _ => .ok true) (.jobj [])) ∧
     HandlerShape ["output"] (sm2_encrypt (fun _ _ => .ok "00") (.jobj [])) ∧
     HandlerShape ["output"] (sm2_decrypt (fun _ _ => .ok "00") (.jobj [])) ∧
     (ExactlyOneStatus (errorResult "Process timed out") ∨
      cex9Parse slowProc.stdout = some (errorResult "Process timed out"))) :=
  ⟨rfl,
   C9_status_discipline wLibStr (fun _ _ _ _ => .ok "00") (fun _ _ _ _ => .ok "00")
     (fun _ _ => .ok ("s", "p", "q")) (fun _ _ _ => .ok true) (fun _ _ => .ok "00")
     (fun _ _ => .ok "00") (.jobj []) cex9Parse slowProc "php"
     (errorResult "Process timed out") rfl⟩

/-! ## The Matrix Driver: `TestRunner`

The three test protocols are translated loop by loop.  The mutable
`self.test_results` list is an explicit accumulator; every Gateway call is
also logged as an `Event`.  A Python exception escaping a loop body (a
`KeyError` on a missing `status`/`output`/`signature` key, or indexing a
non-dict result) is the `Bool` crash flag: the records appended so far are
kept and everything after the raise is skipped. -/

/-- One record appended to `TestRunner.test_results`.  Fields a given append
site does not set are `none`. -/
structure Record where
  test : String
  status : String
  language : Option String := none
  languages : Option (List String) := none
  hashes : Option (List (String × JValue)) := none
  encryptor : Option String := none
  decryptor : Option String := none
  signer : Option String := none
  verifier : Option String := none
  error : Option JValue := none

/-- One Gateway invocation performed by a driver. -/
structure Event where
  provider : String
  algorithm : String
  operation : String
  payload : List (String × JValue)

/-- The available wrappers as the drivers see them: what
`LanguageWrapper.execute` returns for a provider, algorithm, operation and
input payload. -/
abbrev Oracle : Type := String → String → String → List (String × JValue) → JValue

/-- The fixed SM3 test input. -/
def sm3_testData : String := "Hello, SM3!"

/-- The fixed SM4 test plaintext. -/
def sm4_plaintext : String := "Test message for SM4"

/-- The fixed SM4 test key (32 hex chars = 16 bytes). -/
def sm4_key : String := "0123456789abcdef0123456789abcdef"

/-- The fixed SM2 test message. -/
def sm2_message : String := "Test message for SM2 signing"

/-- The payload of every SM3 hash call. -/
def sm3Payload : List (String × JValue) := [("data", .jstr sm3_testData)]

/-- The payload of every SM4 encrypt call. -/
def sm4EncPayload : List (String × JValue) :=
  [("plaintext", .jstr sm4_plaintext), ("key", .jstr sm4_key), ("mode", .jstr "ECB")]

/-- The payload of an SM4 decrypt call on a given ciphertext. -/
def sm4DecPayload (ciphertext : JValue) : List (String × JValue) :=
  [("ciphertext", ciphertext), ("key", .jstr sm4_key), ("mode", .jstr "ECB")]

/-- The payload of every SM2 sign call. -/
def sm2SignPayload : List (String × JValue) := [("message", .jstr sm2_message)]

/-- The payload of an SM2 verify call on a given signature and public key. -/
def sm2VerifyPayload (signature publicKey : JValue) : List (String × JValue) :=
  [("message", .jstr sm2_message), ("signature", signature), ("public_key", publicKey)]

/-- Python `str(v)` for values interpolated into an f-string (collection
rendering abbreviated; no recorded status depends on it). -/
def pyStr : JValue → String
  | .jnull => "None"
  | .jbool true => "True"
  | .jbool false => "False"
  | .jnum n => toString n
  | .jstr s => s
  | .jarr _ => "<list>"
  | .jobj _ => "<dict>"

/-- The plaintext-mismatch error message of `test_sm4_encrypt_decrypt`. -/
def plaintextMismatch (got : JValue) : String :=
  "Plaintext mismatch: expected \x27" ++ sm4_plaintext ++ "\x27, got \x27" ++
    pyStr got ++ "\x27"

/-- The `for lang_name, wrapper in self.wrappers.items()` loop of
`test_sm3_hash`: collect each success digest into `hashes`, record a failed
outcome for each error response. -/
def sm3_loop (oracle : Oracle) :
    List String → List (String × JValue) → List Event → List Record →
    (List (String × JValue) × List Event × List Record × Bool)
  | [], hashes, evs, recs => (hashes, evs, recs, false)
  | lang :: rest, hashes, evs, recs =>
    let result := oracle lang "sm3" "hash" sm3Payload
    let evs2 := evs ++ [⟨lang, "sm3", "hash", sm3Payload⟩]
    match result.find "status" with
    | none => (hashes, evs2, recs, true)
    | some st =>
      if st.isStr "success" then
        match result.find "output" with
        | none => (hashes, evs2, recs, true)
        | some out => sm3_loop oracle rest (hashes ++ [(lang, out)]) evs2 recs
      else
        sm3_loop oracle rest hashes evs2
          (recs ++ [{ test := "sm3_hash", language := some lang, status := "failed",
                      error := some (result.pyGet "message") }])

/-- `test_sm3_hash`: the per-provider loop, then the consistency verdict —
passed iff the set of collected digests has exactly one element. -/
def test_sm3_hash (oracle : Oracle) (langs : List String) :
    List Event × List Record × Bool :=
  match sm3_loop oracle langs [] [] [] with
  | (_, evs, recs, true) => (evs, recs, true)
  | (hashes, evs, recs, false) =>
    if (dedupJ (hashes.map Prod.snd)).length = 1 then
      (evs, recs ++ [{ test := "sm3_hash", status := "passed",
                       languages := some (hashes.map Prod.fst) }], false)
    else
      (evs, recs ++ [{ test := "sm3_hash", status := "failed",
                       error := some (.jstr "Hash values do not match"),
                       hashes := some hashes }], false)

/-- The inner `for decryptor_name in languages` loop of
`test_sm4_encrypt_decrypt`, on the ciphertext produced by `encName`. -/
def sm4_dec_loop (oracle : Oracle) (encName : String) (ciphertext : JValue) :
    List String → List Event → List Record → (List Event × List Record × Bool)
  | [], evs, recs => (evs, recs, false)
  | dec :: rest, evs, recs =>
    let result := oracle dec "sm4" "decrypt" (sm4DecPayload ciphertext)
    let evs2 := evs ++ [⟨dec, "sm4", "decrypt", sm4DecPayload ciphertext⟩]
    match result.find "status" with
    | none => (evs2, recs, true)
    | some st =>
      if st.isStr "success" then
        match result.find "output" with
        | none => (evs2, recs, true)
        | some out =>
          if out.isStr sm4_plaintext then
            sm4_dec_loop oracle encName ciphertext rest evs2
              (recs ++ [{ test := "sm4_encrypt_decrypt", encryptor := some encName,
                          decryptor := some dec, status := "passed" }])
          else
            sm4_dec_loop oracle encName ciphertext rest evs2
              (recs ++ [{ test := "sm4_encrypt_decrypt", encryptor := some encName,
                          decryptor := some dec, status := "failed",
                          error := some (.jstr (plaintextMismatch out)) }])
      else
        sm4_dec_loop oracle encName ciphertext rest evs2
          (recs ++ [{ test := "sm4_encrypt_decrypt", encryptor := some encName,
                      decryptor := some dec, status := "failed",
                      error := some (result.pyGet "message") }])

/-- The outer `for encryptor_name in languages` loop of
`test_sm4_encrypt_decrypt`: one encrypt call per encryptor; an error
response skips the row (`continue`), a success runs the decrypt loop on the
produced ciphertext. -/
def sm4_enc_loop (oracle : Oracle) (langs : List String) :
    List String → List Event → List Record → (List Event × List Record × Bool)
  | [], evs, recs => (evs, recs, false)
  | enc :: rest, evs, recs =>
    let result := oracle enc "sm4" "encrypt" sm4EncPayload
    let evs2 := evs ++ [⟨enc, "sm4", "encrypt", sm4EncPayload⟩]
    match result.find "status" with
    | none => (evs2, recs, true)
    | some st =>
      if st.isStr "success" then
        match result.find "output" with
        | none => (evs2, recs, true)
        | some ct =>
          match sm4_dec_loop oracle enc ct langs evs2 recs with
          | (evs3, recs3, true) => (evs3, recs3, true)
          | (evs3, recs3, false) => sm4_enc_loop oracle langs rest evs3 recs3
      else
        sm4_enc_loop oracle langs rest evs2 recs

/-- `test_sm4_encrypt_decrypt`. -/
def test_sm4_encrypt_decrypt (oracle : Oracle) (langs : List String) :
    List Event × List Record × Bool :=
  sm4_enc_loop oracle langs langs [] []

/-- The inner `for verifier_name in languages` loop of
`test_sm2_sign_verify`, on the signature and public key from `signName`. -/
def sm2_ver_loop (oracle : Oracle) (signName : String) (signature publicKey : JValue) :
    List String → List Event → List Record → (List Event × List Record × Bool)
  | [], evs, recs => (evs, recs, false)
  | ver :: rest, evs, recs =>
    let result := oracle ver "sm2" "verify" (sm2VerifyPayload signature publicKey)
    let evs2 := evs ++ [⟨ver, "sm2", "verify", sm2VerifyPayload signature publicKey⟩]
    match result.find "status" with
    | none => (evs2, recs, true)
    | some st =>
      if st.isStr "success" then
        if (result.pyGetD "valid" (.jbool false)).truthy then
          sm2_ver_loop oracle signName signature publicKey rest evs2
            (recs ++ [{ test := "sm2_sign_verify", signer := some signName,
                        verifier := some ver, status := "passed" }])
        else
          sm2_ver_loop oracle signName signature publicKey rest evs2
            (recs ++ [{ test := "sm2_sign_verify", signer := some signName,
                        verifier := some ver, status := "failed",
                        error := some (.jstr "Signature verification failed") }])
      else
        sm2_ver_loop oracle signName signature publicKey rest evs2
          (recs ++ [{ test := "sm2_sign_verify", signer := some signName,
                      verifier := some ver, status := "failed",
                      error := some (result.pyGet "message") }])

/-- The outer `for signer_name in languages` loop of `test_sm2_sign_verify`:
a sign error skips the row; a success reads `signature` (a missing key
raises) and `public_key` (a falsy one skips the row with nothing recorded);
otherwise the verify loop runs over all providers. -/
def sm2_sign_loop (oracle : Oracle) (langs : List String) :
    List String → List Event → List Record → (List Event × List Record × Bool)
  | [], evs, recs => (evs, recs, false)
  | sgn :: rest, evs, recs =>
    let result := oracle sgn "sm2" "sign" sm2SignPayload
    let evs2 := evs ++ [⟨sgn, "sm2", "sign", sm2SignPayload⟩]
    match result.find "status" with
    | none => (evs2, recs, true)
    | some st =>
      if st.isStr "success" then
        match result.find "signature" with
        | none => (evs2, recs, true)
        | some signature =>
          if (result.pyGet "public_key").truthy then
            match sm2_ver_loop oracle sgn signature (result.pyGet "public_key")
                langs evs2 recs with
            | (evs3, recs3, true) => (evs3, recs3, true)
            | (evs3, recs3, false) => sm2_sign_loop oracle langs rest evs3 recs3
          else
            sm2_sign_loop oracle langs rest evs2 recs
      else
        sm2_sign_loop oracle langs rest evs2 recs

/-- `test_sm2_sign_verify`. -/
def test_sm2_sign_verify (oracle : Oracle) (langs : List String) :
    List Event × List Record × Bool :=
  sm2_sign_loop oracle langs langs [] []

/-- `run_all_tests` after wrapper detection: the three drivers in order; an
uncaught exception aborts the rest of the run. -/
def run_all_tests_records (oracle : Oracle) (langs : List String) :
    List Record × Bool :=
  match test_sm3_hash oracle langs with
  | (_, r1, true) => (r1, true)
  | (_, r1, false) =>
    match test_sm4_encrypt_decrypt oracle langs with
    | (_, r2, true) => (r1 ++ r2, true)
    | (_, r2, false) =>
      match test_sm2_sign_verify oracle langs with
      | (_, r3, c3) => (r1 ++ r2 ++ r3, c3)

/-- The `passed`/`failed` counters of `print_summary`. -/
def summaryCounts (recs : List Record) : Nat × Nat :=
  (recs.countP (fun r => r.status == "passed"),
   recs.countP (fun r => r.status == "failed"))

/-- The orchestrator process exit code: `main` exits with
`0 if success else 1`; `run_all_tests` returns `False` when no wrappers are
detected, and `print_summary` returns `failed == 0`.  An uncaught exception
terminates the interpreter with exit code 1 as well. -/
def main_exitCode (oracle : Oracle) (langs : List String) : Nat :=
  if langs.isEmpty then 1
  else
    match run_all_tests_records oracle langs with
    | (_, true) => 1
    | (recs, false) => if (summaryCounts recs).2 = 0 then 0 else 1

/-! ## Claim-side characterizations of the drivers -/

/-- What the Gateway returns for a provider's hash call. -/
def hashRes (oracle : Oracle) (l : String) : JValue :=
  oracle l "sm3" "hash" sm3Payload

/-- What the Gateway returns for a provider's encrypt call. -/
def encRes (oracle : Oracle) (l : String) : JValue :=
  oracle l "sm4" "encrypt" sm4EncPayload

/-- What the Gateway returns for a provider's decrypt call on `ct`. -/
def decRes (oracle : Oracle) (l : String) (ct : JValue) : JValue :=
  oracle l "sm4" "decrypt" (sm4DecPayload ct)

/-- What the Gateway returns for a provider's sign call. -/
def signRes (oracle : Oracle) (l : String) : JValue :=
  oracle l "sm2" "sign" sm2SignPayload

/-- What the Gateway returns for a provider's verify call. -/
def verifyRes (oracle : Oracle) (l : String) (sig pk : JValue) : JValue :=
  oracle l "sm2" "verify" (sm2VerifyPayload sig pk)

/-- The result has a `status` key (the drivers index it unconditionally, so
this is what keeps a driver from raising `KeyError`). -/
def WFstatus (v : JValue) : Bool := (v.find "status").isSome

/-- The result has a `status` key, and a success response also carries the
key `k` that the driver then indexes. -/
def WFkey (k : String) (v : JValue) : Bool :=
  match v.find "status" with
  | none => false
  | some st => !st.isStr "success" || (v.find k).isSome

/-- Destructor for `WFkey`. -/
theorem WFkey_cases (k : String) (v : JValue) (h : WFkey k v = true) :
    (∃ st, v.find "status" = some st ∧ st.isStr "success" = false) ∨
    (∃ st out, v.find "status" = some st ∧ st.isStr "success" = true ∧
      v.find k = some out) := by
  unfold WFkey at h
  cases hst : v.find "status" with
  | none => rw [hst] at h; exact absurd h (by simp)
  | some st =>
    cases hs : st.isStr "success" with
    | false => exact Or.inl ⟨st, rfl, hs⟩
    | true =>
      simp only [hst, hs, Bool.not_true, Bool.false_or] at h
      obtain ⟨out, ho⟩ := Option.isSome_iff_exists.mp h
      exact Or.inr ⟨st, out, rfl, hs, ho⟩

/-- Destructor for `WFstatus`. -/
theorem WFstatus_cases (v : JValue) (h : WFstatus v = true) :
    ∃ st, v.find "status" = some st := by
  unfold WFstatus at h
  exact Option.isSome_iff_exists.mp h

/-- Whether a provider's hash call reported success. -/
def hashOk (oracle : Oracle) (l : String) : Bool :=
  match (hashRes oracle l).find "status" with
  | some st => st.isStr "success"
  | none => false

/-- The digests successfully collected by the hash test, in provider order
(the comparison set, with each provider that reported an error excluded). -/
def sm3Successes (oracle : Oracle) (langs : List String) : List (String × JValue) :=
  langs.filterMap (fun l =>
    match (hashRes oracle l).find "status" with
    | some st =>
      if st.isStr "success" then ((hashRes oracle l).find "output").map (fun o => (l, o))
      else none
    | none => none)

/-- The per-provider failed record of the hash test for provider `l`. -/
def sm3FailRecord (oracle : Oracle) (l : String) : Record :=
  { test := "sm3_hash", language := some l, status := "failed",
    error := some ((hashRes oracle l).pyGet "message") }

/-- The per-provider failure records of the hash test, in provider order. -/
def sm3Failures (oracle : Oracle) (langs : List String) : List Record :=
  langs.filterMap (fun l =>
    match (hashRes oracle l).find "status" with
    | some st =>
      if st.isStr "success" then none
      else some (sm3FailRecord oracle l)
    | none => none)

/-- The hash event for provider `l`. -/
def sm3Event (l : String) : Event := ⟨l, "sm3", "hash", sm3Payload⟩

/-- The final consistency record of the hash test: passed iff the comparison
set has exactly one distinct digest, otherwise failed with the per-provider
digest table attached. -/
def sm3FinalRecord (oracle : Oracle) (langs : List String) : Record :=
  if (dedupJ ((sm3Successes oracle langs).map Prod.snd)).length = 1 then
    { test := "sm3_hash", status := "passed",
      languages := some ((sm3Successes oracle langs).map Prod.fst) }
  else
    { test := "sm3_hash", status := "failed",
      error := some (.jstr "Hash values do not match"),
      hashes := some (sm3Successes oracle langs) }

/-- The hash-test loop, started from any accumulator state, appends exactly
the successes, the events and the per-provider failures, and does not
raise. -/
theorem sm3_loop_eq (oracle : Oracle) (langs : List String)
    (hWF : ∀ l ∈ langs, WFkey "output" (hashRes oracle l) = true)
    (hashes : List (String × JValue)) (evs : List Event) (recs : List Record) :
    sm3_loop oracle langs hashes evs recs =
      (hashes ++ sm3Successes oracle langs,
       evs ++ langs.map sm3Event,
       recs ++ sm3Failures oracle langs, false) := by
  induction langs generalizing hashes evs recs with
  | nil => simp [sm3_loop, sm3Successes, sm3Failures]
  | cons l rest ih =>
    have hWFrest : ∀ x ∈ rest, WFkey "output" (hashRes oracle x) = true :=
      fun x hx => hWF x (List.mem_cons_of_mem _ hx)
    rcases WFkey_cases _ _ (hWF l (List.mem_cons_self l rest)) with
      ⟨st, hst, hsucc⟩ | ⟨st, out, hst, hsucc, hout⟩
    · have hst' : (oracle l "sm3" "hash" sm3Payload).find "status" = some st := hst
      simp only [sm3_loop, hst', hsucc, Bool.false_eq_true, if_false]
      rw [ih hWFrest]
      simp [sm3Successes, sm3Failures, List.filterMap_cons, hst', hsucc, sm3FailRecord,
        sm3Event, hashRes]
    · have hst' : (oracle l "sm3" "hash" sm3Payload).find "status" = some st := hst
      have hout' : (oracle l "sm3" "hash" sm3Payload).find "output" = some out := hout
      simp only [sm3_loop, hst', hsucc, if_true, hout']
      rw [ih hWFrest]
      simp [sm3Successes, sm3Failures, List.filterMap_cons, hst', hsucc, hout',
        sm3Event, hashRes]

/-- `test_sm3_hash` under well-formed results: the events, the records and
the absence of a crash. -/
theorem test_sm3_hash_eq (oracle : Oracle) (langs : List String)
    (hWF : ∀ l ∈ langs, WFkey "output" (hashRes oracle l) = true) :
    test_sm3_hash oracle langs =
      (langs.map sm3Event, sm3Failures oracle langs ++ [sm3FinalRecord oracle langs],
       false) := by
  unfold test_sm3_hash
  rw [sm3_loop_eq oracle langs hWF [] [] []]
  simp only [List.nil_append]
  unfold sm3FinalRecord
  by_cases hone : (dedupJ ((sm3Successes oracle langs).map Prod.snd)).length = 1
  · simp only [if_pos hone]
  · simp only [if_neg hone]

/-- The content of claim C5: events, records and verdict of the hash test. -/
def HashConsistencyProp (oracle : Oracle) (langs : List String) : Prop :=
  test_sm3_hash oracle langs =
    (langs.map sm3Event, sm3Failures oracle langs ++ [sm3FinalRecord oracle langs],
     false) ∧
  ((sm3FinalRecord oracle langs).status = "passed" ↔
    (dedupJ ((sm3Successes oracle langs).map Prod.snd)).length = 1) ∧
  ((sm3FinalRecord oracle langs).status = "failed" ↔
    (dedupJ ((sm3Successes oracle langs).map Prod.snd)).length ≠ 1) ∧
  ((dedupJ ((sm3Successes oracle langs).map Prod.snd)).length ≠ 1 →
    (sm3FinalRecord oracle langs).hashes = some (sm3Successes oracle langs)) ∧
  (∀ l ∈ langs, hashOk oracle l = false →
    sm3FailRecord oracle l ∈ sm3Failures oracle langs) ∧
  (∀ l d, (l, d) ∈ sm3Successes oracle langs → hashOk oracle l = true)

/-- **C5**: the hash test invokes the hash operation with the fixed input on
every provider in order, records one failed outcome per provider error (and
excludes those providers from the comparison set), then records one final
outcome: passed iff the set of collected digests has exactly one distinct
value, and otherwise failed with the full digest table attached.  It never
raises. -/
theorem C5_hash_consistency (oracle : Oracle) (langs : List String)
    (hWF : ∀ l ∈ langs, WFkey "output" (hashRes oracle l) = true) :
    HashConsistencyProp oracle langs := by
  refine ⟨test_sm3_hash_eq oracle langs hWF, ?_, ?_, ?_, ?_, ?_⟩
  · unfold sm3FinalRecord
    by_cases hone : (dedupJ ((sm3Successes oracle langs).map Prod.snd)).length = 1
    · simp [if_pos hone, hone]
    · simp only [if_neg hone]
      constructor
      · intro h
        exact absurd h (by simp)
      · intro h
        exact absurd h hone
  · unfold sm3FinalRecord
    by_cases hone : (dedupJ ((sm3Successes oracle langs).map Prod.snd)).length = 1
    · simp only [if_pos hone]
      constructor
      · intro h
        exact absurd h (by simp)
      · intro h
        exact absurd hone h
    · simp [if_neg hone, hone]
  · intro hone
    unfold sm3FinalRecord
    rw [if_neg hone]
  · intro l hl hfail
    unfold sm3Failures
    rw [List.mem_filterMap]
    refine ⟨l, hl, ?_⟩
    rcases WFkey_cases _ _ (hWF l hl) with ⟨st, hst, hsucc⟩ | ⟨st, out, hst, hsucc, _⟩
    · simp only [hst, hsucc, Bool.false_eq_true, if_false]
    · unfold hashOk at hfail
      simp [hst, hsucc] at hfail
  · intro l d hmem
    unfold sm3Successes at hmem
    rw [List.mem_filterMap] at hmem
    obtain ⟨x, hx, hfx⟩ := hmem
    cases hst : (hashRes oracle x).find "status" with
    | none => simp [hst] at hfx
    | some st =>
      simp only [hst] at hfx
      by_cases hs : st.isStr "success" = true
      · simp only [hs, if_true] at hfx
        cases ho : (hashRes oracle x).find "output" with
        | none => simp [ho] at hfx
        | some o =>
          rw [ho] at hfx
          simp at hfx
          obtain ⟨hxl, _⟩ := hfx
          subst hxl
          unfold hashOk
          rw [hst]
          exact hs
      · simp [hs] at hfx

/-! ## Claim-side characterization of the cipher matrix -/

/-- Whether a provider's encrypt call reported success. -/
def encOk (oracle : Oracle) (l : String) : Bool :=
  match (encRes oracle l).find "status" with
  | some st => st.isStr "success"
  | none => false

/-- The ciphertext a provider's successful encrypt call produced. -/
def ctOf (oracle : Oracle) (l : String) : JValue :=
  ((encRes oracle l).find "output").getD .jnull

/-- The outcome the decrypt loop records for decryptor `dec` on ciphertext
`ct` produced by `enc`.  (The fallback branches are unreachable for results
that satisfy `WFkey "output"`.) -/
def sm4PairRecordAt (oracle : Oracle) (enc dec : String) (ct : JValue) : Record :=
  match (decRes oracle dec ct).find "status" with
  | some st =>
    if st.isStr "success" then
      match (decRes oracle dec ct).find "output" with
      | some out =>
        if out.isStr sm4_plaintext then
          { test := "sm4_encrypt_decrypt", encryptor := some enc,
            decryptor := some dec, status := "passed" }
        else
          { test := "sm4_encrypt_decrypt", encryptor := some enc,
            decryptor := some dec, status := "failed",
            error := some (.jstr (plaintextMismatch out)) }
      | none =>
        { test := "sm4_encrypt_decrypt", encryptor := some enc,
          decryptor := some dec, status := "failed", error := some .jnull }
    else
      { test := "sm4_encrypt_decrypt", encryptor := some enc,
        decryptor := some dec, status := "failed",
        error := some ((decRes oracle dec ct).pyGet "message") }
  | none =>
    { test := "sm4_encrypt_decrypt", encryptor := some enc,
      decryptor := some dec, status := "failed", error := some .jnull }

/-- Modelled from the spec: the round trip for `(enc, dec)` holds when the
decryptor reports success on `enc`'s ciphertext and returns exactly the
original plaintext. -/
def decryptMatches (oracle : Oracle) (enc dec : String) : Bool :=
  match (decRes oracle dec (ctOf oracle enc)).find "status" with
  | some st =>
    st.isStr "success" &&
      (match (decRes oracle dec (ctOf oracle enc)).find "output" with
       | some out => out.isStr sm4_plaintext
       | none => false)
  | none => false

/-- The encrypt event for provider `l`. -/
def sm4EncEvent (l : String) : Event := ⟨l, "sm4", "encrypt", sm4EncPayload⟩

/-- The decrypt event for provider `dec` on ciphertext `ct`. -/
def sm4DecEvent (ct : JValue) (dec : String) : Event :=
  ⟨dec, "sm4", "decrypt", sm4DecPayload ct⟩

/-- The Gateway calls one encryptor row performs: the encrypt attempt, then
(only on success) one decrypt per provider. -/
def sm4RowEvents (oracle : Oracle) (langs : List String) (enc : String) : List Event :=
  sm4EncEvent enc ::
    (if encOk oracle enc then langs.map (sm4DecEvent (ctOf oracle enc)) else [])

/-- The outcomes one encryptor row records: one per decryptor on success,
none at all when the encrypt step failed. -/
def sm4RowRecords (oracle : Oracle) (langs : List String) (enc : String) : List Record :=
  if encOk oracle enc then
    langs.map (fun dec => sm4PairRecordAt oracle enc dec (ctOf oracle enc))
  else []

/-- The decrypt loop, from any accumulator state: one event and one record
per decryptor, no crash. -/
theorem sm4_dec_loop_eq (oracle : Oracle) (encName : String) (ct : JValue)
    (langs : List String)
    (hWF : ∀ l ∈ langs, WFkey "output" (decRes oracle l ct) = true)
    (evs : List Event) (recs : List Record) :
    sm4_dec_loop oracle encName ct langs evs recs =
      (evs ++ langs.map (sm4DecEvent ct),
       recs ++ langs.map (fun dec => sm4PairRecordAt oracle encName dec ct),
       false) := by
  induction langs generalizing evs recs with
  | nil => simp [sm4_dec_loop]
  | cons dec rest ih =>
    have hWFrest : ∀ x ∈ rest, WFkey "output" (decRes oracle x ct) = true :=
      fun x hx => hWF x (List.mem_cons_of_mem _ hx)
    rcases WFkey_cases _ _ (hWF dec (List.mem_cons_self dec rest)) with
      ⟨st, hst, hsucc⟩ | ⟨st, out, hst, hsucc, hout⟩
    · have hst' : (oracle dec "sm4" "decrypt" (sm4DecPayload ct)).find "status" = some st := hst
      simp only [sm4_dec_loop, hst', hsucc, Bool.false_eq_true, if_false]
      rw [ih hWFrest]
      simp [sm4PairRecordAt, sm4DecEvent, decRes, hst', hsucc]
    · have hst' : (oracle dec "sm4" "decrypt" (sm4DecPayload ct)).find "status" = some st := hst
      have hout' : (oracle dec "sm4" "decrypt" (sm4DecPayload ct)).find "output" = some out := hout
      cases hm : out.isStr sm4_plaintext with
      | true =>
        simp only [sm4_dec_loop, hst', hsucc, if_true, hout', hm]
        rw [ih hWFrest]
        simp [sm4PairRecordAt, sm4DecEvent, decRes, hst', hsucc, hout', hm]
      | false =>
        simp only [sm4_dec_loop, hst', hsucc, if_true, hout', hm, Bool.false_eq_true,
          if_false]
        rw [ih hWFrest]
        simp [sm4PairRecordAt, sm4DecEvent, decRes, hst', hsucc, hout', hm]

/-- The encryptor loop, from any accumulator state: rows concatenate, no
crash. -/
theorem sm4_enc_loop_eq (oracle : Oracle) (langs : List String) (outer : List String)
    (hWFenc : ∀ l ∈ outer, WFkey "output" (encRes oracle l) = true)
    (hWFdec : ∀ l ∈ langs, ∀ ct, WFkey "output" (decRes oracle l ct) = true)
    (evs : List Event) (recs : List Record) :
    sm4_enc_loop oracle langs outer evs recs =
      (evs ++ outer.flatMap (sm4RowEvents oracle langs),
       recs ++ outer.flatMap (sm4RowRecords oracle langs), false) := by
  induction outer generalizing evs recs with
  | nil => simp [sm4_enc_loop]
  | cons enc rest ih =>
    have hWFrest : ∀ x ∈ rest, WFkey "output" (encRes oracle x) = true :=
      fun x hx => hWFenc x (List.mem_cons_of_mem _ hx)
    rcases WFkey_cases _ _ (hWFenc enc (List.mem_cons_self enc rest)) with
      ⟨st, hst, hsucc⟩ | ⟨st, ct, hst, hsucc, hout⟩
    · have hst' : (oracle enc "sm4" "encrypt" sm4EncPayload).find "status" = some st := hst
      have hE : encOk oracle enc = false := by
        unfold encOk
        simp only [hst, hsucc]
      simp only [sm4_enc_loop, hst', hsucc, Bool.false_eq_true, if_false]
      rw [ih hWFrest]
      simp [List.flatMap_cons, sm4RowEvents, Record, sm4RowRecords, hE, sm4EncEvent]
    · have hst' : (oracle enc "sm4" "encrypt" sm4EncPayload).find "status" = some st := hst
      have hout' : (oracle enc "sm4" "encrypt" sm4EncPayload).find "output" = some ct := hout
      have hE : encOk oracle enc = true := by
        unfold encOk
        simp only [hst, hsucc]
      have hct : ctOf oracle enc = ct := by
        unfold ctOf
        rw [hout]
        rfl
      have hdec := sm4_dec_loop_eq oracle enc ct langs (fun l hl => hWFdec l hl ct)
        (evs ++ [⟨enc, "sm4", "encrypt", sm4EncPayload⟩]) recs
      simp only [sm4_enc_loop, hst', hsucc, if_true, hout', hdec]
      rw [ih hWFrest]
      simp [List.flatMap_cons, sm4RowEvents, sm4RowRecords, hE, hct, sm4EncEvent,
        sm4DecEvent]

/-- `test_sm4_encrypt_decrypt` under well-formed results. -/
theorem test_sm4_eq (oracle : Oracle) (langs : List String)
    (hWFenc : ∀ l ∈ langs, WFkey "output" (encRes oracle l) = true)
    (hWFdec : ∀ l ∈ langs, ∀ ct, WFkey "output" (decRes oracle l ct) = true) :
    test_sm4_encrypt_decrypt oracle langs =
      (langs.flatMap (sm4RowEvents oracle langs),
       langs.flatMap (sm4RowRecords oracle langs), false) := by
  unfold test_sm4_encrypt_decrypt
  rw [sm4_enc_loop_eq oracle langs langs hWFenc hWFdec [] []]
  simp

/-! ## Claims C3 and C4: the cipher matrix -/

/-- The per-pair record carries the pair it is about, in every branch. -/
theorem sm4PairRecordAt_pair (oracle : Oracle) (enc dec : String) (ct : JValue) :
    (sm4PairRecordAt oracle enc dec ct).encryptor = some enc ∧
    (sm4PairRecordAt oracle enc dec ct).decryptor = some dec ∧
    (sm4PairRecordAt oracle enc dec ct).test = "sm4_encrypt_decrypt" := by
  unfold sm4PairRecordAt
  cases hq : (decRes oracle dec ct).find "status" with
  | none => exact ⟨rfl, rfl, rfl⟩
  | some st =>
    cases hs : st.isStr "success" with
    | false => simp [hs]
    | true =>
      simp only [hs, if_true]
      cases ho : (decRes oracle dec ct).find "output" with
      | none => exact ⟨rfl, rfl, rfl⟩
      | some out =>
        cases hm : out.isStr sm4_plaintext with
        | true => simp [hm]
        | false => simp [hm]

/-- The recorded status of a pair is `passed`/`failed` exactly as the round
trip holds or fails. -/
theorem sm4PairRecordAt_status (oracle : Oracle) (enc dec : String) :
    ((sm4PairRecordAt oracle enc dec (ctOf oracle enc)).status = "passed" ↔
      decryptMatches oracle enc dec = true) ∧
    ((sm4PairRecordAt oracle enc dec (ctOf oracle enc)).status = "failed" ↔
      decryptMatches oracle enc dec = false) := by
  unfold sm4PairRecordAt decryptMatches
  cases hq : (decRes oracle dec (ctOf oracle enc)).find "status" with
  | none => simp
  | some st =>
    cases hs : st.isStr "success" with
    | false => simp [hs]
    | true =>
      simp only [hs, if_true, Bool.true_and]
      cases ho : (decRes oracle dec (ctOf oracle enc)).find "output" with
      | none => simp
      | some out =>
        cases hm : out.isStr sm4_plaintext with
        | true => simp [hm]
        | false => simp [hm]

/-- An oracle whose encrypt calls all fail with a business error and whose
other calls succeed. -/
def cex3Oracle : Oracle := fun _l _alg op _payload =>
  if op == "encrypt" then .jobj [("status", .jstr "error"), ("message", .jstr "bad key")]
  else .jobj [("status", .jstr "success"), ("output", .jstr sm4_plaintext)]

/-- **C3** (counterexample): with one available provider `a` whose encrypt
call fails, the ordered pair `(a, a)` is silently absent from the recorded
outcome list — it is recorded neither passed nor failed. -/
theorem C3_counterexample :
    encOk cex3Oracle "a" = false ∧
    (test_sm4_encrypt_decrypt cex3Oracle ["a"]).2.1 = [] :=
  ⟨rfl, rfl⟩

/-- The content of the amended claim C3. -/
def RoundTripMatrixProp (oracle : Oracle) (langs : List String) : Prop :=
  (test_sm4_encrypt_decrypt oracle langs).2.2 = false ∧
  (test_sm4_encrypt_decrypt oracle langs).2.1 =
    langs.flatMap (sm4RowRecords oracle langs) ∧
  (∀ enc, sm4RowRecords oracle langs enc =
    if encOk oracle enc then
      langs.map (fun dec => sm4PairRecordAt oracle enc dec (ctOf oracle enc))
    else []) ∧
  (∀ enc dec : String,
    (sm4PairRecordAt oracle enc dec (ctOf oracle enc)).encryptor = some enc ∧
    (sm4PairRecordAt oracle enc dec (ctOf oracle enc)).decryptor = some dec ∧
    ((sm4PairRecordAt oracle enc dec (ctOf oracle enc)).status = "passed" ↔
      decryptMatches oracle enc dec = true) ∧
    ((sm4PairRecordAt oracle enc dec (ctOf oracle enc)).status = "failed" ↔
      decryptMatches oracle enc dec = false))

/-- **C3** (amended): for every ordered pair `(E, D)` whose encryptor
reported success, exactly one outcome is recorded — passed iff the decrypted
plaintext equals the original, failed otherwise (decrypt error or mismatch);
when `E`'s encryption fails, the whole `E` row is absent from the outcome
list (the pairs are dropped, not recorded failed). -/
theorem C3_round_trip (oracle : Oracle) (langs : List String)
    (hWFenc : ∀ l ∈ langs, WFkey "output" (encRes oracle l) = true)
    (hWFdec : ∀ l ∈ langs, ∀ ct, WFkey "output" (decRes oracle l ct) = true) :
    RoundTripMatrixProp oracle langs := by
  refine ⟨?_, ?_, fun enc => rfl, fun enc dec => ?_⟩
  · rw [test_sm4_eq oracle langs hWFenc hWFdec]
  · rw [test_sm4_eq oracle langs hWFenc hWFdec]
  · obtain ⟨h1, h2, _⟩ := sm4PairRecordAt_pair oracle enc dec (ctOf oracle enc)
    obtain ⟨h3, h4⟩ := sm4PairRecordAt_status oracle enc dec
    exact ⟨h1, h2, h3, h4⟩

/-- A well-behaved oracle: every operation succeeds, decrypt returns the
fixed plaintext, verify reports valid. -/
def wOracle : Oracle := fun _l _alg op _payload =>
  if op == "hash" then .jobj [("status", .jstr "success"), ("output", .jstr "0a")]
  else if op == "encrypt" then .jobj [("status", .jstr "success"), ("output", .jstr "c1")]
  else if op == "decrypt" then
    .jobj [("status", .jstr "success"), ("output", .jstr sm4_plaintext)]
  else if op == "sign" then
    .jobj [("status", .jstr "success"), ("signature", .jstr "5566"),
           ("private_key", .jstr "01"), ("public_key", .jstr "04ab")]
  else .jobj [("status", .jstr "success"), ("valid", .jbool true)]

/-- Witness for C3 with two providers and a well-behaved oracle. -/
theorem C3_round_trip_witness :
    (∀ l ∈ ["python", "go"], WFkey "output" (encRes wOracle l) = true) ∧
    (∀ l ∈ ["python", "go"], ∀ ct, WFkey "output" (decRes wOracle l ct) = true) ∧
    RoundTripMatrixProp wOracle ["python", "go"] :=
  ⟨fun _ _ => rfl, fun _ _ _ => rfl,
   C3_round_trip wOracle ["python", "go"] (fun _ _ => rfl) (fun _ _ _ => rfl)⟩

theorem countP_flatMap_eq_sum {α β : Type} (p : β → Bool) (f : α → List β) (l : List α) :
    (l.flatMap f).countP p = (l.map fun a => (f a).countP p).sum := by
  induction l with
  | nil => rfl
  | cons a t ih => simp [List.flatMap_cons, List.countP_append, ih]

theorem sum_map_indicator {α : Type} [DecidableEq α] (l : List α) (a : α) (g : α → Nat)
    (hg : ∀ x, g x = if x = a then 1 else 0) (hnd : l.Nodup) (ha : a ∈ l) :
    (l.map g).sum = 1 := by
  induction l with
  | nil => cases ha
  | cons x t ih =>
    rw [List.map_cons, List.sum_cons]
    rcases List.mem_cons.mp ha with rfl | hat
    · rw [hg, if_pos rfl]
      have hnotin : a ∉ t := (List.nodup_cons.mp hnd).1
      have hz : (t.map g).sum = 0 := by
        rw [List.sum_eq_zero]
        intro n hn
        rw [List.mem_map] at hn
        obtain ⟨y, hy, rfl⟩ := hn
        rw [hg, if_neg (fun h : y = a => hnotin (h ▸ hy))]
      rw [hz]
    · have hx : x ≠ a := by
        rintro rfl
        exact (List.nodup_cons.mp hnd).1 hat
      rw [hg x, if_neg hx, ih (List.nodup_cons.mp hnd).2 hat]

/-- How many of a row's Gateway calls are encrypt calls by provider `enc`:
one for the `enc` row itself, none for any other row. -/
theorem sm4RowEvents_countP (oracle : Oracle) (langs : List String) (enc l : String) :
    ((sm4RowEvents oracle langs l).countP
      (fun e => e.provider == enc && e.operation == "encrypt")) =
      if l = enc then 1 else 0 := by
  unfold sm4RowEvents
  rw [List.countP_cons]
  have hz : ((if encOk oracle l then langs.map (sm4DecEvent (ctOf oracle l)) else []).countP
      (fun e => e.provider == enc && e.operation == "encrypt")) = 0 := by
    by_cases hE : encOk oracle l = true
    · rw [if_pos hE, List.countP_eq_zero]
      intro e he
      rw [List.mem_map] at he
      obtain ⟨dec, _, rfl⟩ := he
      simp [sm4DecEvent]
    · rw [if_neg hE]
      rfl
  rw [hz]
  by_cases hl : l = enc
  · subst hl
    simp [sm4EncEvent]
  · simp [sm4EncEvent, hl]

/-- The content of claim C4. -/
def EncryptOnceProp (oracle : Oracle) (langs : List String) : Prop :=
  (test_sm4_encrypt_decrypt oracle langs).1 =
    langs.flatMap (sm4RowEvents oracle langs) ∧
  (∀ enc ∈ langs,
    ((test_sm4_encrypt_decrypt oracle langs).1.countP
      (fun e => e.provider == enc && e.operation == "encrypt")) = 1) ∧
  (∀ enc ∈ langs, encOk oracle enc = false →
    sm4RowEvents oracle langs enc = [sm4EncEvent enc] ∧
    sm4RowRecords oracle langs enc = [] ∧
    (∀ r ∈ (test_sm4_encrypt_decrypt oracle langs).2.1, ¬ r.encryptor = some enc)) ∧
  (∀ enc ∈ langs, sm4EncEvent enc ∈ (test_sm4_encrypt_decrypt oracle langs).1)

/-- **C4**: in the cipher test, encryption is attempted exactly once per
encryptor; when an encryptor's encrypt call fails, its row performs no
decrypt calls and records no outcomes (no record carries that encryptor),
while every other encryptor is still processed (its encrypt event is in the
trace and its row contributes its own events and records). -/
theorem C4_encrypt_once (oracle : Oracle) (langs : List String)
    (hnd : langs.Nodup)
    (hWFenc : ∀ l ∈ langs, WFkey "output" (encRes oracle l) = true)
    (hWFdec : ∀ l ∈ langs, ∀ ct, WFkey "output" (decRes oracle l ct) = true) :
    EncryptOnceProp oracle langs := by
  have htest := test_sm4_eq oracle langs hWFenc hWFdec
  refine ⟨?_, ?_, ?_, ?_⟩
  · rw [htest]
  · intro enc henc
    rw [htest]
    show (langs.flatMap (sm4RowEvents oracle langs)).countP
      (fun e => e.provider == enc && e.operation == "encrypt") = 1
    rw [countP_flatMap_eq_sum]
    exact sum_map_indicator langs enc _
      (fun x => sm4RowEvents_countP oracle langs enc x) hnd henc
  · intro enc henc hE
    refine ⟨?_, ?_, ?_⟩
    · unfold sm4RowEvents
      rw [hE]
      simp
    · unfold sm4RowRecords
      rw [hE]
      simp
    · intro r hr
      have hr2 : r ∈ langs.flatMap (sm4RowRecords oracle langs) := by
        rw [htest] at hr
        exact hr
      rw [List.mem_flatMap] at hr2
      obtain ⟨x, hx, hrx⟩ := hr2
      intro hre
      unfold sm4RowRecords at hrx
      by_cases hEx : encOk oracle x = true
      · rw [if_pos hEx] at hrx
        rw [List.mem_map] at hrx
        obtain ⟨dec, _, rfl⟩ := hrx
        have hfield := (sm4PairRecordAt_pair oracle x dec (ctOf oracle x)).1
        rw [hfield] at hre
        injection hre with hxe
        subst hxe
        simp [hE] at hEx
      · rw [if_neg hEx] at hrx
        cases hrx
  · intro enc henc
    have : sm4EncEvent enc ∈ langs.flatMap (sm4RowEvents oracle langs) := by
      rw [List.mem_flatMap]
      exact ⟨enc, henc, by unfold sm4RowEvents; exact List.mem_cons_self _ _⟩
    rw [htest]
    exact this

/-- Witness for C4 with two providers and a well-behaved oracle. -/
theorem C4_encrypt_once_witness :
    (["python", "go"] : List String).Nodup ∧
    (∀ l ∈ ["python", "go"], WFkey "output" (encRes wOracle l) = true) ∧
    (∀ l ∈ ["python", "go"], ∀ ct, WFkey "output" (decRes wOracle l ct) = true) ∧
    EncryptOnceProp wOracle ["python", "go"] :=
  ⟨by decide, fun _ _ => rfl, fun _ _ _ => rfl,
   C4_encrypt_once wOracle ["python", "go"] (by decide) (fun _ _ => rfl)
     (fun _ _ _ => rfl)⟩

/-! ## Claim C2: the sign/verify matrix -/

/-- Whether a provider's sign call reported success. -/
def signOk (oracle : Oracle) (l : String) : Bool :=
  match (signRes oracle l).find "status" with
  | some st => st.isStr "success"
  | none => false

/-- The signature a provider's successful sign call produced. -/
def sigOf (oracle : Oracle) (l : String) : JValue :=
  ((signRes oracle l).find "signature").getD .jnull

/-- The public key of a provider's sign response (`None` when omitted). -/
def pkOf (oracle : Oracle) (l : String) : JValue :=
  (signRes oracle l).pyGet "public_key"

/-- The outcome the verify loop records for verifier `ver` on `(sig, pk)`
from `sgn`.  (The fallback branch is unreachable for results with a
`status`.) -/
def sm2PairRecordAt (oracle : Oracle) (sgn ver : String) (sig pk : JValue) : Record :=
  match (verifyRes oracle ver sig pk).find "status" with
  | some st =>
    if st.isStr "success" then
      if ((verifyRes oracle ver sig pk).pyGetD "valid" (.jbool false)).truthy then
        { test := "sm2_sign_verify", signer := some sgn, verifier := some ver,
          status := "passed" }
      else
        { test := "sm2_sign_verify", signer := some sgn, verifier := some ver,
          status := "failed", error := some (.jstr "Signature verification failed") }
    else
      { test := "sm2_sign_verify", signer := some sgn, verifier := some ver,
        status := "failed",
        error := some ((verifyRes oracle ver sig pk).pyGet "message") }
  | none =>
    { test := "sm2_sign_verify", signer := some sgn, verifier := some ver,
      status := "failed", error := some .jnull }

/-- Modelled from the spec: the verify step for a pair is rejected when the
call errors or the verifier does not report the signature valid. -/
def verifyRejected (oracle : Oracle) (ver : String) (sig pk : JValue) : Bool :=
  match (verifyRes oracle ver sig pk).find "status" with
  | some st =>
    !st.isStr "success" ||
      !((verifyRes oracle ver sig pk).pyGetD "valid" (.jbool false)).truthy
  | none => true

/-- The sign event for provider `l`. -/
def sm2SignEvent (l : String) : Event := ⟨l, "sm2", "sign", sm2SignPayload⟩

/-- The verify event for provider `ver` on `(sig, pk)`. -/
def sm2VerEvent (sig pk : JValue) (ver : String) : Event :=
  ⟨ver, "sm2", "verify", sm2VerifyPayload sig pk⟩

/-- The Gateway calls one signer row performs. -/
def sm2RowEvents (oracle : Oracle) (langs : List String) (sgn : String) : List Event :=
  sm2SignEvent sgn ::
    (if signOk oracle sgn && (pkOf oracle sgn).truthy then
       langs.map (sm2VerEvent (sigOf oracle sgn) (pkOf oracle sgn))
     else [])

/-- The outcomes one signer row records: one per verifier when the sign call
succeeded with a truthy public key, and none at all otherwise. -/
def sm2RowRecords (oracle : Oracle) (langs : List String) (sgn : String) : List Record :=
  if signOk oracle sgn && (pkOf oracle sgn).truthy then
    langs.map (fun ver => sm2PairRecordAt oracle sgn ver (sigOf oracle sgn) (pkOf oracle sgn))
  else []

/-- The verify loop, from any accumulator state: one event and one record
per verifier, no crash. -/
theorem sm2_ver_loop_eq (oracle : Oracle) (sgn : String) (sig pk : JValue)
    (langs : List String)
    (hWF : ∀ l ∈ langs, WFstatus (verifyRes oracle l sig pk) = true)
    (evs : List Event) (recs : List Record) :
    sm2_ver_loop oracle sgn sig pk langs evs recs =
      (evs ++ langs.map (sm2VerEvent sig pk),
       recs ++ langs.map (fun ver => sm2PairRecordAt oracle sgn ver sig pk),
       false) := by
  induction langs generalizing evs recs with
  | nil => simp [sm2_ver_loop]
  | cons ver rest ih =>
    have hWFrest : ∀ x ∈ rest, WFstatus (verifyRes oracle x sig pk) = true :=
      fun x hx => hWF x (List.mem_cons_of_mem _ hx)
    obtain ⟨st, hst⟩ := WFstatus_cases _ (hWF ver (List.mem_cons_self ver rest))
    have hst' : (oracle ver "sm2" "verify" (sm2VerifyPayload sig pk)).find "status" =
        some st := hst
    cases hs : st.isStr "success" with
    | false =>
      simp only [sm2_ver_loop, hst', hs, Bool.false_eq_true, if_false]
      rw [ih hWFrest]
      simp [sm2PairRecordAt, sm2VerEvent, verifyRes, hst', hs]
    | true =>
      cases ht : ((oracle ver "sm2" "verify" (sm2VerifyPayload sig pk)).pyGetD
          "valid" (.jbool false)).truthy with
      | true =>
        simp only [sm2_ver_loop, hst', hs, if_true, ht]
        rw [ih hWFrest]
        simp [sm2PairRecordAt, sm2VerEvent, verifyRes, hst', hs, ht]
      | false =>
        simp only [sm2_ver_loop, hst', hs, if_true, ht, Bool.false_eq_true, if_false]
        rw [ih hWFrest]
        simp [sm2PairRecordAt, sm2VerEvent, verifyRes, hst', hs, ht]

/-- The signer loop, from any accumulator state: rows concatenate, no
crash. -/
theorem sm2_sign_loop_eq (oracle : Oracle) (langs : List String) (outer : List String)
    (hWFsign : ∀ l ∈ outer, WFkey "signature" (signRes oracle l) = true)
    (hWFver : ∀ l ∈ langs, ∀ sig pk, WFstatus (verifyRes oracle l sig pk) = true)
    (evs : List Event) (recs : List Record) :
    sm2_sign_loop oracle langs outer evs recs =
      (evs ++ outer.flatMap (sm2RowEvents oracle langs),
       recs ++ outer.flatMap (sm2RowRecords oracle langs), false) := by
  induction outer generalizing evs recs with
  | nil => simp [sm2_sign_loop]
  | cons sgn rest ih =>
    have hWFrest : ∀ x ∈ rest, WFkey "signature" (signRes oracle x) = true :=
      fun x hx => hWFsign x (List.mem_cons_of_mem _ hx)
    rcases WFkey_cases _ _ (hWFsign sgn (List.mem_cons_self sgn rest)) with
      ⟨st, hst, hsucc⟩ | ⟨st, sig, hst, hsucc, hsig⟩
    · have hst' : (oracle sgn "sm2" "sign" sm2SignPayload).find "status" = some st := hst
      have hS : signOk oracle sgn = false := by
        unfold signOk
        simp only [hst, hsucc]
      simp only [sm2_sign_loop, hst', hsucc, Bool.false_eq_true, if_false]
      rw [ih hWFrest]
      simp [List.flatMap_cons, sm2RowEvents, sm2RowRecords, hS, sm2SignEvent]
    · have hst' : (oracle sgn "sm2" "sign" sm2SignPayload).find "status" = some st := hst
      have hsig' : (oracle sgn "sm2" "sign" sm2SignPayload).find "signature" =
          some sig := hsig
      have hS : signOk oracle sgn = true := by
        unfold signOk
        simp only [hst, hsucc]
      have hSig : sigOf oracle sgn = sig := by
        unfold sigOf
        rw [hsig]
        rfl
      cases ht : ((oracle sgn "sm2" "sign" sm2SignPayload).pyGet "public_key").truthy with
      | false =>
        have hT : (pkOf oracle sgn).truthy = false := ht
        simp only [sm2_sign_loop, hst', hsucc, if_true, hsig', ht, Bool.false_eq_true,
          if_false]
        rw [ih hWFrest]
        simp [List.flatMap_cons, sm2RowEvents, sm2RowRecords, hS, hT, sm2SignEvent]
      | true =>
        have hT : (pkOf oracle sgn).truthy = true := ht
        have hver := sm2_ver_loop_eq oracle sgn sig
          ((oracle sgn "sm2" "sign" sm2SignPayload).pyGet "public_key") langs
          (fun l hl => hWFver l hl sig _)
          (evs ++ [⟨sgn, "sm2", "sign", sm2SignPayload⟩]) recs
        simp only [sm2_sign_loop, hst', hsucc, if_true, hsig', ht, hver]
        rw [ih hWFrest]
        simp [List.flatMap_cons, sm2RowEvents, sm2RowRecords, hS, hT, ht, hSig,
          sm2SignEvent, sm2VerEvent, pkOf, signRes]

/-- `test_sm2_sign_verify` under well-formed results. -/
theorem test_sm2_eq (oracle : Oracle) (langs : List String)
    (hWFsign : ∀ l ∈ langs, WFkey "signature" (signRes oracle l) = true)
    (hWFver : ∀ l ∈ langs, ∀ sig pk, WFstatus (verifyRes oracle l sig pk) = true) :
    test_sm2_sign_verify oracle langs =
      (langs.flatMap (sm2RowEvents oracle langs),
       langs.flatMap (sm2RowRecords oracle langs), false) := by
  unfold test_sm2_sign_verify
  rw [sm2_sign_loop_eq oracle langs langs hWFsign hWFver [] []]
  simp

/-- The per-pair record carries the pair it is about, in every branch. -/
theorem sm2PairRecordAt_pair (oracle : Oracle) (sgn ver : String) (sig pk : JValue) :
    (sm2PairRecordAt oracle sgn ver sig pk).signer = some sgn ∧
    (sm2PairRecordAt oracle sgn ver sig pk).verifier = some ver ∧
    (sm2PairRecordAt oracle sgn ver sig pk).test = "sm2_sign_verify" := by
  unfold sm2PairRecordAt
  cases hq : (verifyRes oracle ver sig pk).find "status" with
  | none => exact ⟨rfl, rfl, rfl⟩
  | some st =>
    cases hs : st.isStr "success" with
    | false => simp [hs]
    | true =>
      simp only [hs, if_true]
      cases ht : ((verifyRes oracle ver sig pk).pyGetD "valid" (.jbool false)).truthy with
      | true => simp [ht]
      | false => simp [ht]

/-- The recorded status of a pair is `failed` exactly when the verify call
errors or reports the signature not valid, and `passed` otherwise. -/
theorem sm2PairRecordAt_status (oracle : Oracle) (sgn ver : String) (sig pk : JValue) :
    ((sm2PairRecordAt oracle sgn ver sig pk).status = "failed" ↔
      verifyRejected oracle ver sig pk = true) ∧
    ((sm2PairRecordAt oracle sgn ver sig pk).status = "passed" ↔
      verifyRejected oracle ver sig pk = false) := by
  unfold sm2PairRecordAt verifyRejected
  cases hq : (verifyRes oracle ver sig pk).find "status" with
  | none => simp
  | some st =>
    cases hs : st.isStr "success" with
    | false => simp [hs]
    | true =>
      simp only [hs, if_true, Bool.not_true, Bool.false_or]
      cases ht : ((verifyRes oracle ver sig pk).pyGetD "valid" (.jbool false)).truthy with
      | true => simp [ht]
      | false => simp [ht]

/-- An oracle whose sign calls succeed but omit the public key. -/
def cex2Oracle : Oracle := fun _l _alg op _payload =>
  if op == "sign" then .jobj [("status", .jstr "success"), ("signature", .jstr "ab")]
  else .jobj [("status", .jstr "success"), ("valid", .jbool true)]

/-- **C2** (counterexample): with one available provider `a` whose sign call
succeeds but omits the public key, no Matrix Outcome at all is recorded for
the pair `(a, a)` — in particular none marked failed, contradicting the
claim that such a pair is recorded as failed. -/
theorem C2_counterexample :
    signOk cex2Oracle "a" = true ∧
    (signRes cex2Oracle "a").find "public_key" = none ∧
    (test_sm2_sign_verify cex2Oracle ["a"]).2.1 = [] :=
  ⟨rfl, rfl, rfl⟩

/-- The content of the amended claim C2. -/
def SignVerifyMatrixProp (oracle : Oracle) (langs : List String) : Prop :=
  (test_sm2_sign_verify oracle langs).2.2 = false ∧
  (test_sm2_sign_verify oracle langs).2.1 =
    langs.flatMap (sm2RowRecords oracle langs) ∧
  (∀ sgn, sm2RowRecords oracle langs sgn =
    if signOk oracle sgn && (pkOf oracle sgn).truthy then
      langs.map (fun ver => sm2PairRecordAt oracle sgn ver (sigOf oracle sgn) (pkOf oracle sgn))
    else []) ∧
  (∀ sgn ver : String,
    (sm2PairRecordAt oracle sgn ver (sigOf oracle sgn) (pkOf oracle sgn)).signer = some sgn ∧
    (sm2PairRecordAt oracle sgn ver (sigOf oracle sgn) (pkOf oracle sgn)).verifier = some ver ∧
    ((sm2PairRecordAt oracle sgn ver (sigOf oracle sgn) (pkOf oracle sgn)).status = "failed" ↔
      verifyRejected oracle ver (sigOf oracle sgn) (pkOf oracle sgn) = true) ∧
    ((sm2PairRecordAt oracle sgn ver (sigOf oracle sgn) (pkOf oracle sgn)).status = "passed" ↔
      verifyRejected oracle ver (sigOf oracle sgn) (pkOf oracle sgn) = false))

/-- **C2** (amended): a signer row records one independent outcome per
verifier only when its sign call succeeds and returns a truthy public key;
that outcome is failed exactly when the verify call errors or reports the
signature invalid, and passed otherwise.  When the sign call fails or the
response omits a (truthy) public key, no outcomes are recorded for that
signer's row. -/
theorem C2_sign_verify_matrix (oracle : Oracle) (langs : List String)
    (hWFsign : ∀ l ∈ langs, WFkey "signature" (signRes oracle l) = true)
    (hWFver : ∀ l ∈ langs, ∀ sig pk, WFstatus (verifyRes oracle l sig pk) = true) :
    SignVerifyMatrixProp oracle langs := by
  refine ⟨?_, ?_, fun sgn => rfl, fun sgn ver => ?_⟩
  · rw [test_sm2_eq oracle langs hWFsign hWFver]
  · rw [test_sm2_eq oracle langs hWFsign hWFver]
  · obtain ⟨h1, h2, _⟩ :=
      sm2PairRecordAt_pair oracle sgn ver (sigOf oracle sgn) (pkOf oracle sgn)
    obtain ⟨h3, h4⟩ :=
      sm2PairRecordAt_status oracle sgn ver (sigOf oracle sgn) (pkOf oracle sgn)
    exact ⟨h1, h2, h3, h4⟩

/-- Witness for C2 with two providers and a well-behaved oracle. -/
theorem C2_sign_verify_matrix_witness :
    (∀ l ∈ ["python", "go"], WFkey "signature" (signRes wOracle l) = true) ∧
    (∀ l ∈ ["python", "go"], ∀ sig pk, WFstatus (verifyRes wOracle l sig pk) = true) ∧
    SignVerifyMatrixProp wOracle ["python", "go"] :=
  ⟨fun _ _ => rfl, fun _ _ _ _ => rfl,
   C2_sign_verify_matrix wOracle ["python", "go"] (fun _ _ => rfl)
     (fun _ _ _ _ => rfl)⟩

/-! ## Claims C10 and C6: record statuses and the exit code -/

/-- Every recorded status is `passed` or `failed`. -/
def recStatusOk (r : Record) : Prop := r.status = "passed" ∨ r.status = "failed"

theorem sm3_loop_status (oracle : Oracle) (langs : List String)
    (hashes : List (String × JValue)) (evs : List Event) (recs : List Record)
    (hacc : ∀ r ∈ recs, recStatusOk r) :
    ∀ r ∈ (sm3_loop oracle langs hashes evs recs).2.2.1, recStatusOk r := by
  induction langs generalizing hashes evs recs with
  | nil => simpa [sm3_loop] using hacc
  | cons l rest ih =>
    cases hst : (oracle l "sm3" "hash" sm3Payload).find "status" with
    | none =>
      simp only [sm3_loop, hst]
      exact hacc
    | some st =>
      cases hs : st.isStr "success" with
      | true =>
        cases ho : (oracle l "sm3" "hash" sm3Payload).find "output" with
        | none =>
          simp only [sm3_loop, hst, hs, if_true, ho]
          exact hacc
        | some out =>
          simp only [sm3_loop, hst, hs, if_true, ho]
          exact ih _ _ _ hacc
      | false =>
        simp only [sm3_loop, hst, hs, Bool.false_eq_true, if_false]
        refine ih _ _ _ ?_
        intro r hr
        rcases List.mem_append.mp hr with hr | hr
        · exact hacc r hr
        · rw [List.mem_singleton] at hr
          subst hr
          exact Or.inr rfl

theorem test_sm3_hash_status (oracle : Oracle) (langs : List String) :
    ∀ r ∈ (test_sm3_hash oracle langs).2.1, recStatusOk r := by
  have h := sm3_loop_status oracle langs [] [] [] (by intro r hr; cases hr)
  unfold test_sm3_hash
  rcases hq : sm3_loop oracle langs [] [] [] with ⟨hashes, evs, recs, crash⟩
  rw [hq] at h
  cases crash with
  | true => simpa using h
  | false =>
    by_cases hone : (dedupJ (hashes.map Prod.snd)).length = 1
    · simp only [if_pos hone]
      intro r hr
      rcases List.mem_append.mp hr with hr | hr
      · exact h r hr
      · rw [List.mem_singleton] at hr
        subst hr
        exact Or.inl rfl
    · simp only [if_neg hone]
      intro r hr
      rcases List.mem_append.mp hr with hr | hr
      · exact h r hr
      · rw [List.mem_singleton] at hr
        subst hr
        exact Or.inr rfl

theorem sm4_dec_loop_status (oracle : Oracle) (encName : String) (ct : JValue)
    (langs : List String) (evs : List Event) (recs : List Record)
    (hacc : ∀ r ∈ recs, recStatusOk r) :
    ∀ r ∈ (sm4_dec_loop oracle encName ct langs evs recs).2.1, recStatusOk r := by
  induction langs generalizing evs recs with
  | nil => simpa [sm4_dec_loop] using hacc
  | cons dec rest ih =>
    cases hst : (oracle dec "sm4" "decrypt" (sm4DecPayload ct)).find "status" with
    | none => simp only [sm4_dec_loop, hst]; exact hacc
    | some st =>
      cases hs : st.isStr "success" with
      | false =>
        simp only [sm4_dec_loop, hst, hs, Bool.false_eq_true, if_false]
        refine ih _ _ ?_
        intro r hr
        rcases List.mem_append.mp hr with hr | hr
        · exact hacc r hr
        · rw [List.mem_singleton] at hr
          subst hr
          exact Or.inr rfl
      | true =>
        cases ho : (oracle dec "sm4" "decrypt" (sm4DecPayload ct)).find "output" with
        | none => simp only [sm4_dec_loop, hst, hs, if_true, ho]; exact hacc
        | some out =>
          cases hm : out.isStr sm4_plaintext with
          | true =>
            simp only [sm4_dec_loop, hst, hs, if_true, ho, hm]
            refine ih _ _ ?_
            intro r hr
            rcases List.mem_append.mp hr with hr | hr
            · exact hacc r hr
            · rw [List.mem_singleton] at hr
              subst hr
              exact Or.inl rfl
          | false =>
            simp only [sm4_dec_loop, hst, hs, if_true, ho, hm, Bool.false_eq_true,
              if_false]
            refine ih _ _ ?_
            intro r hr
            rcases List.mem_append.mp hr with hr | hr
            · exact hacc r hr
            · rw [List.mem_singleton] at hr
              subst hr
              exact Or.inr rfl

theorem sm4_enc_loop_status (oracle : Oracle) (langs : List String)
    (outer : List String) (evs : List Event) (recs : List Record)
    (hacc : ∀ r ∈ recs, recStatusOk r) :
    ∀ r ∈ (sm4_enc_loop oracle langs outer evs recs).2.1, recStatusOk r := by
  induction outer generalizing evs recs with
  | nil => simpa [sm4_enc_loop] using hacc
  | cons enc rest ih =>
    cases hst : (oracle enc "sm4" "encrypt" sm4EncPayload).find "status" with
    | none => simp only [sm4_enc_loop, hst]; exact hacc
    | some st =>
      cases hs : st.isStr "success" with
      | false =>
        simp only [sm4_enc_loop, hst, hs, Bool.false_eq_true, if_false]
        exact ih _ _ hacc
      | true =>
        cases ho : (oracle enc "sm4" "encrypt" sm4EncPayload).find "output" with
        | none => simp only [sm4_enc_loop, hst, hs, if_true, ho]; exact hacc
        | some ct =>
          simp only [sm4_enc_loop, hst, hs, if_true, ho]
          have hdec := sm4_dec_loop_status oracle enc ct langs
            (evs ++ [⟨enc, "sm4", "encrypt", sm4EncPayload⟩]) recs hacc
          rcases hq : sm4_dec_loop oracle enc ct langs
            (evs ++ [⟨enc, "sm4", "encrypt", sm4EncPayload⟩]) recs with ⟨evs3, recs3, crash⟩
          rw [hq] at hdec
          rw [hq]
          cases crash with
          | true => simpa using hdec
          | false => exact ih _ _ (by simpa using hdec)

theorem test_sm4_status (oracle : Oracle) (langs : List String) :
    ∀ r ∈ (test_sm4_encrypt_decrypt oracle langs).2.1, recStatusOk r :=
  sm4_enc_loop_status oracle langs langs [] [] (by intro r hr; cases hr)

theorem sm2_ver_loop_status (oracle : Oracle) (sgn : String) (sig pk : JValue)
    (langs : List String) (evs : List Event) (recs : List Record)
    (hacc : ∀ r ∈ recs, recStatusOk r) :
    ∀ r ∈ (sm2_ver_loop oracle sgn sig pk langs evs recs).2.1, recStatusOk r := by
  induction langs generalizing evs recs with
  | nil => simpa [sm2_ver_loop] using hacc
  | cons ver rest ih =>
    cases hst : (oracle ver "sm2" "verify" (sm2VerifyPayload sig pk)).find "status" with
    | none => simp only [sm2_ver_loop, hst]; exact hacc
    | some st =>
      cases hs : st.isStr "success" with
      | false =>
        simp only [sm2_ver_loop, hst, hs, Bool.false_eq_true, if_false]
        refine ih _ _ ?_
        intro r hr
        rcases List.mem_append.mp hr with hr | hr
        · exact hacc r hr
        · rw [List.mem_singleton] at hr
          subst hr
          exact Or.inr rfl
      | true =>
        cases ht : ((oracle ver "sm2" "verify" (sm2VerifyPayload sig pk)).pyGetD
            "valid" (.jbool false)).truthy with
        | true =>
          simp only [sm2_ver_loop, hst, hs, if_true, ht]
          refine ih _ _ ?_
          intro r hr
          rcases List.mem_append.mp hr with hr | hr
          · exact hacc r hr
          · rw [List.mem_singleton] at hr
            subst hr
            exact Or.inl rfl
        | false =>
          simp only [sm2_ver_loop, hst, hs, if_true, ht, Bool.false_eq_true, if_false]
          refine ih _ _ ?_
          intro r hr
          rcases List.mem_append.mp hr with hr | hr
          · exact hacc r hr
          · rw [List.mem_singleton] at hr
            subst hr
            exact Or.inr rfl

theorem sm2_sign_loop_status (oracle : Oracle) (langs : List String)
    (outer : List String) (evs : List Event) (recs : List Record)
    (hacc : ∀ r ∈ recs, recStatusOk r) :
    ∀ r ∈ (sm2_sign_loop oracle langs outer evs recs).2.1, recStatusOk r := by
  induction outer generalizing evs recs with
  | nil => simpa [sm2_sign_loop] using hacc
  | cons sgn rest ih =>
    cases hst : (oracle sgn "sm2" "sign" sm2SignPayload).find "status" with
    | none => simp only [sm2_sign_loop, hst]; exact hacc
    | some st =>
      cases hs : st.isStr "success" with
      | false =>
        simp only [sm2_sign_loop, hst, hs, Bool.false_eq_true, if_false]
        exact ih _ _ hacc
      | true =>
        cases hsig : (oracle sgn "sm2" "sign" sm2SignPayload).find "signature" with
        | none => simp only [sm2_sign_loop, hst, hs, if_true, hsig]; exact hacc
        | some sig =>
          cases ht : ((oracle sgn "sm2" "sign" sm2SignPayload).pyGet "public_key").truthy with
          | false =>
            simp only [sm2_sign_loop, hst, hs, if_true, hsig, ht, Bool.false_eq_true,
              if_false]
            exact ih _ _ hacc
          | true =>
            simp only [sm2_sign_loop, hst, hs, if_true, hsig, ht]
            have hver := sm2_ver_loop_status oracle sgn sig
              ((oracle sgn "sm2" "sign" sm2SignPayload).pyGet "public_key") langs
              (evs ++ [⟨sgn, "sm2", "sign", sm2SignPayload⟩]) recs hacc
            rcases hq : sm2_ver_loop oracle sgn sig
              ((oracle sgn "sm2" "sign" sm2SignPayload).pyGet "public_key") langs
              (evs ++ [⟨sgn, "sm2", "sign", sm2SignPayload⟩]) recs with ⟨evs3, recs3, crash⟩
            rw [hq] at hver
            rw [hq]
            cases crash with
            | true => simpa using hver
            | false => exact ih _ _ (by simpa using hver)

theorem test_sm2_status (oracle : Oracle) (langs : List String) :
    ∀ r ∈ (test_sm2_sign_verify oracle langs).2.1, recStatusOk r :=
  sm2_sign_loop_status oracle langs langs [] [] (by intro r hr; cases hr)

theorem run_all_tests_status (oracle : Oracle) (langs : List String) :
    ∀ r ∈ (run_all_tests_records oracle langs).1, recStatusOk r := by
  unfold run_all_tests_records
  have s1 := test_sm3_hash_status oracle langs
  rcases h1 : test_sm3_hash oracle langs with ⟨e1, r1, c1⟩
  rw [h1] at s1
  cases c1 with
  | true => simpa using s1
  | false =>
    have s2 := test_sm4_status oracle langs
    rcases h2 : test_sm4_encrypt_decrypt oracle langs with ⟨e2, r2, c2⟩
    rw [h2] at s2
    cases c2 with
    | true =>
      intro r hr
      rcases List.mem_append.mp hr with hr | hr
      · exact s1 r hr
      · exact s2 r hr
    | false =>
      have s3 := test_sm2_status oracle langs
      rcases h3 : test_sm2_sign_verify oracle langs with ⟨e3, r3, c3⟩
      rw [h3] at s3
      intro r hr
      rcases List.mem_append.mp hr with hr | hr
      · rcases List.mem_append.mp hr with hr | hr
        · exact s1 r hr
        · exact s2 r hr
      · exact s3 r hr

theorem counts_add (recs : List Record) :
    (∀ r ∈ recs, recStatusOk r) →
    (summaryCounts recs).1 + (summaryCounts recs).2 = recs.length := by
  unfold summaryCounts
  induction recs with
  | nil => intro _; rfl
  | cons r t ih =>
    intro h
    have hr := h r (List.mem_cons_self r t)
    have iht := ih (fun x hx => h x (List.mem_cons_of_mem _ hx))
    simp only [List.countP_cons, List.length_cons]
    rcases hr with h1 | h1 <;> simp [h1] <;> omega

theorem failed_zero_iff (recs : List Record)
    (h : ∀ r ∈ recs, recStatusOk r) :
    (recs.countP (fun r => r.status == "failed") = 0 ↔
      ∀ r ∈ recs, r.status = "passed") := by
  rw [List.countP_eq_zero]
  constructor
  · intro hz r hr
    rcases h r hr with h1 | h1
    · exact h1
    · exact absurd (by simp [h1]) (hz r hr)
  · intro hp r hr
    simp [hp r hr]

/-- **C10**: every record the three matrix protocols append has status
exactly `passed` or `failed`, so the aggregator's passed and failed counters
always sum to the length of the outcome list. -/
theorem C10_status_dichotomy (oracle : Oracle) (langs : List String) :
    (∀ r ∈ (run_all_tests_records oracle langs).1,
      r.status = "passed" ∨ r.status = "failed") ∧
    (summaryCounts (run_all_tests_records oracle langs).1).1 +
      (summaryCounts (run_all_tests_records oracle langs).1).2 =
      (run_all_tests_records oracle langs).1.length :=
  ⟨run_all_tests_status oracle langs,
   counts_add _ (run_all_tests_status oracle langs)⟩

theorem main_exitCode_eq (oracle : Oracle) (langs : List String) (recs : List Record)
    (hrun : run_all_tests_records oracle langs = (recs, false)) :
    main_exitCode oracle langs =
      if langs.isEmpty then 1 else if (summaryCounts recs).2 = 0 then 0 else 1 := by
  unfold main_exitCode
  by_cases hemp : langs.isEmpty
  · rw [if_pos hemp, if_pos hemp]
  · rw [if_neg hemp, if_neg hemp, hrun]

theorem exit_code_iff_of_run (oracle : Oracle) (langs : List String)
    (recs : List Record)
    (hrun : run_all_tests_records oracle langs = (recs, false))
    (hstat : ∀ r ∈ recs, recStatusOk r) :
    (main_exitCode oracle langs = 0 ↔
      (langs ≠ [] ∧ ∀ r ∈ recs, r.status = "passed")) ∧
    (main_exitCode oracle langs = 1 ↔
      ¬(langs ≠ [] ∧ ∀ r ∈ recs, r.status = "passed")) := by
  rw [main_exitCode_eq oracle langs recs hrun]
  have hiff := failed_zero_iff recs hstat
  cases langs with
  | nil => simp
  | cons l0 lt =>
    have hne : (l0 :: lt) ≠ [] := by simp
    simp only [List.isEmpty_cons, Bool.false_eq_true, if_false]
    by_cases hz : (summaryCounts (recs : List Record)).2 = 0
    · have hall := hiff.mp hz
      rw [if_pos hz]
      constructor
      · constructor
        · intro _
          exact ⟨hne, hall⟩
        · intro _
          rfl
      · constructor
        · intro h
          exact absurd h (by decide)
        · intro hcontra
          exact absurd ⟨hne, hall⟩ hcontra
    · have hnall : ¬ ∀ r ∈ recs, r.status = "passed" :=
        fun hall => hz (hiff.mpr hall)
      rw [if_neg hz]
      constructor
      · constructor
        · intro h
          exact absurd h (by decide)
        · rintro ⟨_, hall⟩
          exact absurd hall hnall
      · constructor
        · intro _
          rintro ⟨_, hall⟩
          exact hnall hall
        · intro _
          rfl

/-- The content of claim C6. -/
def ExitCodeProp (oracle : Oracle) (langs : List String) : Prop :=
  (main_exitCode oracle langs = 0 ↔
    (langs ≠ [] ∧
      ∀ r ∈ (run_all_tests_records oracle langs).1, r.status = "passed")) ∧
  (main_exitCode oracle langs = 1 ↔
    ¬(langs ≠ [] ∧
      ∀ r ∈ (run_all_tests_records oracle langs).1, r.status = "passed"))

/-- **C6**: the orchestrator exits 0 iff providers were detected and every
recorded Matrix Outcome has status passed; it exits 1 otherwise, including
when zero providers are discovered. -/
theorem C6_exit_code (oracle : Oracle) (langs : List String)
    (hWFhash : ∀ l ∈ langs, WFkey "output" (hashRes oracle l) = true)
    (hWFenc : ∀ l ∈ langs, WFkey "output" (encRes oracle l) = true)
    (hWFdec : ∀ l ∈ langs, ∀ ct, WFkey "output" (decRes oracle l ct) = true)
    (hWFsign : ∀ l ∈ langs, WFkey "signature" (signRes oracle l) = true)
    (hWFver : ∀ l ∈ langs, ∀ sig pk, WFstatus (verifyRes oracle l sig pk) = true) :
    ExitCodeProp oracle langs := by
  have hrun : run_all_tests_records oracle langs =
      ((sm3Failures oracle langs ++ [sm3FinalRecord oracle langs]) ++
        langs.flatMap (sm4RowRecords oracle langs) ++
        langs.flatMap (sm2RowRecords oracle langs), false) := by
    simp only [run_all_tests_records, test_sm3_hash_eq oracle langs hWFhash,
      test_sm4_eq oracle langs hWFenc hWFdec, test_sm2_eq oracle langs hWFsign hWFver]
  have hstat : ∀ r ∈ (sm3Failures oracle langs ++ [sm3FinalRecord oracle langs]) ++
      langs.flatMap (sm4RowRecords oracle langs) ++
      langs.flatMap (sm2RowRecords oracle langs), recStatusOk r := by
    have h := run_all_tests_status oracle langs
    rw [hrun] at h
    exact h
  unfold ExitCodeProp
  rw [hrun]
  exact exit_code_iff_of_run oracle langs _ hrun hstat

/-- Witness for C5 with two providers and a well-behaved oracle. -/
theorem C5_hash_consistency_witness :
    (∀ l ∈ ["python", "go"], WFkey "output" (hashRes wOracle l) = true) ∧
    HashConsistencyProp wOracle ["python", "go"] :=
  ⟨fun _ _ => rfl, C5_hash_consistency wOracle ["python", "go"] (fun _ _ => rfl)⟩

/-- Witness for C6 with two providers and a well-behaved oracle. -/
theorem C6_exit_code_witness :
    (∀ l ∈ ["python", "go"], WFkey "output" (hashRes wOracle l) = true) ∧
    (∀ l ∈ ["python", "go"], WFkey "output" (encRes wOracle l) = true) ∧
    (∀ l ∈ ["python", "go"], ∀ ct, WFkey "output" (decRes wOracle l ct) = true) ∧
    (∀ l ∈ ["python", "go"], WFkey "signature" (signRes wOracle l) = true) ∧
    (∀ l ∈ ["python", "go"], ∀ sig pk, WFstatus (verifyRes wOracle l sig pk) = true) ∧
    ExitCodeProp wOracle ["python", "go"] :=
  ⟨fun _ _ => rfl, fun _ _ => rfl, fun _ _ _ => rfl, fun _ _ => rfl, fun _ _ _ _ => rfl,
   C6_exit_code wOracle ["python", "go"] (fun _ _ => rfl) (fun _ _ => rfl)
     (fun _ _ _ => rfl) (fun _ _ => rfl) (fun _ _ _ _ => rfl)⟩

end SMBC
